import Mathlib

/-!
# Verification of the spyapp session lifecycle engine

Shallow embedding of `src/server/src/lib/socket.ts` (the in-memory session
and player registries, the lobby/playing/finished state machine, role and
secret-word distribution, and the supporting admin-settings clamp from
`src/server/src/routes/game.ts`).

Modelling conventions:
* The two JS `Map`s `games` and `players` become association lists with
  `mapFind` / `mapSet` / `mapDel` (JS `Map.set` replaces an existing key).
* In the source, `game.players` stores references to the very `Player`
  objects held in the `players` map; mutating `player.role` through either
  alias updates both.  Here `Game.players` stores the player ids and every
  field mutation goes through the `players` registry, which is the same
  sharing discipline made explicit.
* `Math.random()`-driven choices are injected: the shuffle takes a source
  `r : Nat → Nat` (the draw for index `i` is `r i % (i+1)`, matching
  `Math.floor(Math.random() * (i + 1))`), the word and hint picks are
  parameters.
* Database calls (`query`, `createPlayerInDb`) are external; each handler
  takes a `dbOk : Bool` telling whether the fallible calls succeed.  A
  throwing `query` lands in the handler's `catch` block, which reports an
  error *after* the in-memory mutations already performed — the model
  reproduces exactly that.
* Socket-room emissions become an `Event` trace; `socket.join`/`leave`
  affect only transport-level room membership, which is outside the
  registries and never read by the handlers modelled here.
-/

namespace SpyApp

/-- The two mutually exclusive roles (`'spy' | 'regular'`). -/
inductive Role where
  | spy
  | regular
deriving DecidableEq, Repr, BEq

/-- Game status (`'waiting' | 'playing' | 'finished'`). -/
inductive GStatus where
  | waiting
  | playing
  | finished
deriving DecidableEq, Repr, BEq

/-- `Player` record: `{ id, name, gameId?, role? }`. -/
structure Player where
  id : String
  name : String
  gameId : Option String := none
  role : Option Role := none
deriving DecidableEq, Repr

/-- `Game` record: `{ id, hostId, players, status, spyCount?, word?, hintWord? }`.
`players` holds the member ids in join order (the source stores the aliased
`Player` objects themselves). -/
structure Game where
  id : String
  hostId : String
  players : List String
  status : GStatus
  spyCount : Option Int := none
  word : Option String := none
  hintWord : Option String := none
deriving DecidableEq, Repr

/-- The server's whole in-memory state: the `games` and `players` maps. -/
structure ServerState where
  games : List (String × Game)
  players : List (String × Player)
deriving DecidableEq, Repr

/-- `getGameSettings()` result (the two fields the socket layer reads). -/
structure Settings where
  showHintsToRegularUsers : Bool
  minPlayersToStart : Nat
deriving DecidableEq, Repr

/-- One entry of the JSON wordlist (`{ word, hints }`; id/category unused here). -/
structure WordData where
  word : String
  hints : List String
deriving DecidableEq, Repr

/-- Events emitted over the socket (room broadcasts and private sends). -/
inductive Event where
  | hostLeft (gameId : String)
  | playerLeft (gameId : String) (playerId : String) (roster : List (String × String))
  | playerJoined (gameId : String) (roster : List (String × String))
  | gameStarted (gameId : String)
  | roleAssigned (playerId : String) (role : Option Role) (word : Option String)
      (hintWord : Option String)
  | playerRoleUpdate (gameId : String) (playerId : String) (role : Option Role)
      (word : Option String) (hintWord : Option String)
  | gameEnded (gameId : String) (word : String) (hintWord : Option String)
      (roster : List (String × String × Option Role))
  | gameRestarted (gameId : String) (roster : List (String × String))
deriving DecidableEq, Repr

/-- Acknowledgment callback payloads: `{success:true, ...}` or `{success:false, error}`. -/
inductive CbResult (α : Type) where
  | ok : α → CbResult α
  | err : String → CbResult α
deriving DecidableEq, Repr

/-- Whether a callback carried an error. -/
def CbResult.isErr {α : Type} : CbResult α → Bool
  | .ok _ => false
  | .err _ => true

/-- State, emitted events and callback result of one handler invocation. -/
structure HOut (α : Type) where
  state : ServerState
  events : List Event
  result : CbResult α
deriving DecidableEq, Repr

/-! ## Association-list maps (the JS `Map`s) -/

/-- `Map.get` — first binding of the key, if any. -/
def mapFind {α : Type} (m : List (String × α)) (k : String) : Option α :=
  match m with
  | [] => none
  | (k', v) :: rest => if k' = k then some v else mapFind rest k

/-- `Map.set` — replace the binding if present, else append. -/
def mapSet {α : Type} (m : List (String × α)) (k : String) (v : α) :
    List (String × α) :=
  match m with
  | [] => [(k, v)]
  | (k', v') :: rest => if k' = k then (k, v) :: rest else (k', v') :: mapSet rest k v

/-- `Map.delete` — drop every binding of the key. -/
def mapDel {α : Type} (m : List (String × α)) (k : String) : List (String × α) :=
  match m with
  | [] => []
  | (k', v') :: rest => if k' = k then mapDel rest k else (k', v') :: mapDel rest k

/-- `Map.has`. -/
def mapHas {α : Type} (m : List (String × α)) (k : String) : Bool :=
  (mapFind m k).isSome

theorem mapFind_mapSet_self {α : Type} (m : List (String × α)) (k : String) (v : α) :
    mapFind (mapSet m k v) k = some v := by
  induction m with
  | nil => simp [mapFind, mapSet]
  | cons hd tl ih =>
    obtain ⟨k', v'⟩ := hd
    by_cases h : k' = k <;> simp [mapFind, mapSet, h, ih]

theorem mapFind_mapSet_ne {α : Type} (m : List (String × α)) (k k' : String) (v : α)
    (h : k' ≠ k) : mapFind (mapSet m k v) k' = mapFind m k' := by
  induction m with
  | nil =>
    have hk : ¬ (k = k') := fun hk => h hk.symm
    simp [mapFind, mapSet, hk]
  | cons hd tl ih =>
    obtain ⟨k0, v0⟩ := hd
    by_cases h0 : k0 = k
    · subst h0
      have hk : ¬ (k0 = k') := fun hk => h hk.symm
      simp [mapFind, mapSet, hk]
    · simp [mapFind, mapSet, h0, ih]

theorem mapDel_mapSet_self {α : Type} (m : List (String × α)) (k : String) (v : α) :
    mapDel (mapSet m k v) k = mapDel m k := by
  induction m with
  | nil => simp [mapDel, mapSet]
  | cons hd tl ih =>
    obtain ⟨k0, v0⟩ := hd
    by_cases h0 : k0 = k <;> simp [mapDel, mapSet, h0, ih]

/-! ## Shared helpers of the socket handlers -/

/-- JS truthiness of an optional string (`undefined`, `null` and `''` are falsy). -/
def strTruthy : Option String → Bool
  | none => false
  | some s => s ≠ ""

/-- JS `String.prototype.trim()` — strip leading and trailing whitespace,
implemented on the character list so that it reduces inside the kernel. -/
def strTrim (s : String) : String :=
  ⟨((s.data.dropWhile Char.isWhitespace).reverse.dropWhile Char.isWhitespace).reverse⟩

/-- JS `String.prototype.substring(0, n)` — the first `n` characters. -/
def strTake (s : String) (n : Nat) : String :=
  ⟨s.data.take n⟩

/-- `game.players.map(p => ({ id: p.id, name: p.name }))` — the member objects are
the aliased registry entries, so the names are resolved through the registry. -/
def rosterOf (players : List (String × Player)) (ids : List String) :
    List (String × String) :=
  ids.filterMap (fun pid => (mapFind players pid).map (fun p => (pid, p.name)))

/-- `game.players.map(p => ({ id, name, role }))` (the `game_ended` payload). -/
def rosterWithRoles (players : List (String × Player)) (ids : List String) :
    List (String × String × Option Role) :=
  ids.filterMap (fun pid => (mapFind players pid).map (fun p => (pid, p.name, p.role)))

/-- `settings.minPlayersToStart || 3` (`0` is falsy). -/
def orDefault3 (n : Nat) : Nat := if n = 0 then 3 else n

/-- `removePlayerFromGame(playerId)` (socket.ts lines 17–74).  Removes the player
from its game's member list, ends the game with a `host_left` broadcast when the
host departs and the game is not already finished, announces `player_left`
otherwise, deletes the game once its member list is empty, and clears the
player's `gameId`/`role`.  Database calls only mirror state and cannot change
the in-memory outcome (their errors are caught and logged). -/
def removePlayerFromGame (s : ServerState) (playerId : String) :
    ServerState × List Event :=
  match mapFind s.players playerId with
  | none => (s, [])
  | some player =>
    match player.gameId with
    | none => (s, [])
    | some gid =>
      match mapFind s.games gid with
      | none => (s, [])
      | some game =>
        let remaining := game.players.filter (fun q => q ≠ playerId)
        let gameEvents :=
          if game.status ≠ GStatus.finished then
            if game.hostId = playerId then
              ({ game with players := remaining, status := GStatus.finished },
               [Event.hostLeft gid])
            else
              ({ game with players := remaining },
               [Event.playerLeft gid playerId (rosterOf s.players remaining)])
          else ({ game with players := remaining }, ([] : List Event))
        let games' :=
          if remaining.length = 0 then mapDel s.games gid
          else mapSet s.games gid gameEvents.1
        let player' := { player with gameId := none, role := none }
        ({ games := games', players := mapSet s.players playerId player' },
         gameEvents.2)

/-- `sendRoleToPlayer(player, gameWord, hintWord)` (socket.ts lines 98–163).
`socketBound` tells whether a live socket is bound to the player
(`allSockets.find(s => s.data.playerId === player.id)` succeeds); without it the
payload is broadcast to the game room as a fallback.  Pure emission — no
registry mutation. -/
def sendRoleToPlayer (settings : Settings) (socketBound : Bool) (player : Player)
    (gameWord : Option String) (hintWord : Option String) : List Event :=
  let hintWordToSend : Option String :=
    if player.role = some Role.spy ∨ settings.showHintsToRegularUsers = true then
      if strTruthy hintWord then some (strTrim (hintWord.getD "")) else none
    else none
  let wordToSend : Option String :=
    if player.role = some Role.regular then some (strTrim (gameWord.getD "")) else none
  if socketBound then
    [Event.roleAssigned player.id player.role wordToSend hintWordToSend]
  else
    match player.gameId with
    | some gid =>
      [Event.playerRoleUpdate gid player.id player.role wordToSend hintWordToSend]
    | none => []

/-! ## The socket event handlers -/

/-- `join_as_player` (socket.ts lines 186–219).  `freshId` is the `uuidv4()`
draw used when no (truthy) `existingUserId` is supplied.  On success the socket
is bound to the returned player id. -/
def joinAsPlayer (s : ServerState) (playerName : String)
    (existingUserId : Option String) (freshId : String) : HOut String :=
  if strTrim playerName = "" then
    { state := s, events := [], result := .err "Valid player name is required" }
  else
    let sanitized := strTake (strTrim playerName) 50
    let playerId := if strTruthy existingUserId then existingUserId.getD "" else freshId
    match mapFind s.players playerId with
    | some existingPlayer =>
      { state := { s with
          players := mapSet s.players playerId { existingPlayer with name := sanitized } },
        events := [], result := .ok playerId }
    | none =>
      { state := { s with
          players := mapSet s.players playerId { id := playerId, name := sanitized } },
        events := [], result := .ok playerId }

/-- `create_game` reply payload. -/
structure CreateReply where
  gameId : String
  spyCount : Int
  minPlayersToStart : Nat
deriving DecidableEq, Repr

/-- `(spyCount && spyCount >= 1 && spyCount <= 5) ? Math.floor(spyCount) : 1`
(socket.ts line 233).  The request is a JS number, so it is modelled as a
rational; `0` is falsy. -/
def validSpyCount (spyCount : ℚ) : Int :=
  if spyCount ≠ 0 ∧ 1 ≤ spyCount ∧ spyCount ≤ 5 then Rat.floor spyCount else 1

/-- `create_game` (socket.ts lines 222–287).  `dbGameInsertOk` is the
`INSERT INTO games` call (a throw is caught by the handler's catch block),
`dbPlayerOk` the `createPlayerInDb` helper (which reports failure as `false`). -/
def createGame (s : ServerState) (socketPid : Option String) (spyCount : ℚ)
    (freshGameId : String) (dbGameInsertOk dbPlayerOk : Bool)
    (settings : Settings) : HOut CreateReply :=
  match socketPid with
  | none => { state := s, events := [], result := .err "Player not registered" }
  | some playerId =>
    if playerId = "" then
      { state := s, events := [], result := .err "Player not registered" }
    else
    match mapFind s.players playerId with
    | none => { state := s, events := [], result := .err "Player not registered" }
    | some player0 =>
      let vsc := validSpyCount spyCount
      let removed :=
        if (player0.gameId).isSome then removePlayerFromGame s playerId else (s, [])
      let s1 := removed.1
      let evs1 := removed.2
      if ¬ dbGameInsertOk then
        { state := s1, events := evs1, result := .err "Failed to create game" }
      else if ¬ dbPlayerOk then
        { state := s1, events := evs1,
          result := .err "Failed to register player in database" }
      else
        let player1 := (mapFind s1.players playerId).getD player0
        let player2 := { player1 with gameId := some freshGameId }
        let game : Game :=
          { id := freshGameId, hostId := playerId, players := [playerId],
            status := GStatus.waiting, spyCount := some vsc }
        { state := { games := mapSet s1.games freshGameId game,
                     players := mapSet s1.players playerId player2 },
          events := evs1,
          result := .ok { gameId := freshGameId, spyCount := vsc,
                          minPlayersToStart := orDefault3 settings.minPlayersToStart } }

/-- `join_game` reply payload (the reconnection reply omits `spyCount` and
`minPlayersToStart`). -/
structure JoinReply where
  gameId : String
  roster : List (String × String)
  hostId : String
  status : GStatus
  spyCount : Option Int
  minPlayersToStart : Option Nat
  reconnected : Bool
deriving DecidableEq, Repr

/-- `join_game` (socket.ts lines 290–381).  The deferred role re-send on the
reconnection path is `sendRoleToPlayer`, modelled separately (it mutates
nothing).  `dbPlayerOk` is the `createPlayerInDb` result; note that on a
database failure the handler has already set `player.gameId` (and possibly
removed the player from a previous game) before reporting the error. -/
def joinGame (s : ServerState) (socketPid : Option String) (gameId : String)
    (dbPlayerOk : Bool) (settings : Settings) : HOut JoinReply :=
  match socketPid with
  | none => { state := s, events := [], result := .err "Player not registered" }
  | some playerId =>
    if playerId = "" then
      { state := s, events := [], result := .err "Player not registered" }
    else
    match mapFind s.players playerId with
    | none => { state := s, events := [], result := .err "Player not registered" }
    | some player =>
      match mapFind s.games gameId with
      | none => { state := s, events := [], result := .err "Game not found" }
      | some game =>
        if game.players.contains playerId then
          { state := s, events := [],
            result := .ok { gameId := game.id,
                            roster := rosterOf s.players game.players,
                            hostId := game.hostId, status := game.status,
                            spyCount := none, minPlayersToStart := none,
                            reconnected := true } }
        else if game.status ≠ GStatus.waiting then
          { state := s, events := [], result := .err "Game already started" }
        else
          let removed :=
            if strTruthy player.gameId ∧ player.gameId ≠ some gameId then
              removePlayerFromGame s playerId
            else (s, [])
          let s1 := removed.1
          let p1 := (mapFind s1.players playerId).getD player
          let s2 : ServerState :=
            { s1 with players := mapSet s1.players playerId { p1 with gameId := some gameId } }
          if ¬ dbPlayerOk then
            { state := s2, events := removed.2,
              result := .err "Database error joining game" }
          else
            let game3 := { game with players := game.players ++ [playerId] }
            let s3 : ServerState := { s2 with games := mapSet s2.games gameId game3 }
            { state := s3,
              events := removed.2 ++
                [Event.playerJoined gameId (rosterOf s3.players game3.players)],
              result := .ok { gameId := game.id,
                              roster := rosterOf s3.players game3.players,
                              hostId := game.hostId, status := game.status,
                              spyCount := some (game.spyCount.getD 1),
                              minPlayersToStart :=
                                some (orDefault3 settings.minPlayersToStart),
                              reconnected := false } }

/-! ### `start_game`: shuffle and role assignment -/

/-- The JS destructuring swap `[l[i], l[j]] = [l[j], l[i]]`. -/
def listSwap (l : List Nat) (i j : Nat) : List Nat :=
  match l.get? i, l.get? j with
  | some a, some b => (l.set i b).set j a
  | _, _ => l

/-- The Fisher–Yates loop `for (let i = n-1; i > 0; i--)`: fuel `i` still
processes indices `i, i-1, …, 1`; the draw at index `i` is
`Math.floor(Math.random() * (i + 1))`, injected as `r i % (i + 1)`. -/
def fyAux (r : Nat → Nat) : Nat → List Nat → List Nat
  | 0, l => l
  | Nat.succ i, l => fyAux r i (listSwap l (i + 1) (r (i + 1) % (i + 2)))

/-- `shuffledIndices` = Fisher–Yates shuffle of `[0, …, n-1]`. -/
def fisherYates (r : Nat → Nat) (n : Nat) : List Nat :=
  fyAux r (n - 1) (List.range n)

/-- `game.players.forEach((player, index) => { player.role = … })` — the member
objects are the aliased registry entries, so each role write updates the
registry. -/
def assignRoles (players : List (String × Player)) (mem : List String) (i : Nat)
    (f : Nat → Role) : List (String × Player) :=
  match mem with
  | [] => players
  | pid :: rest =>
    let players' :=
      match mapFind players pid with
      | some p => mapSet players pid { p with role := some (f i) }
      | none => players
    assignRoles players' rest (i + 1) f

/-- Output of `start_game`: the deferred (500 ms `setTimeout`) private role
deliveries are listed separately from the immediate broadcasts. -/
structure StartOut where
  state : ServerState
  events : List Event
  scheduled : List Event
  result : CbResult Unit
deriving DecidableEq, Repr

/-- `start_game` (socket.ts lines 384–496).  `wordData` is the `getRandomWord()`
draw, `rHint` drives the hint pick, `rShuffle` the shuffle, `bound` tells which
players have a live socket for the deferred delivery.  `dbOk` is the
`UPDATE games` query: a throw is caught *after* the word, roles and status have
already been mutated in memory. -/
def startGame (s : ServerState) (socketPid : Option String) (gameId : String)
    (settings : Settings) (wordData : Option WordData) (rHint : Nat)
    (rShuffle : Nat → Nat) (dbOk : Bool) (bound : String → Bool) : StartOut :=
  match socketPid with
  | none => ⟨s, [], [], .err "Player not registered"⟩
  | some playerId =>
    if playerId = "" then ⟨s, [], [], .err "Player not registered"⟩
    else
    match mapFind s.games gameId with
    | none => ⟨s, [], [], .err "Game not found"⟩
    | some game =>
      if game.hostId ≠ playerId then
        ⟨s, [], [], .err "Only the host can start the game"⟩
      else if game.status = GStatus.playing then ⟨s, [], [], .ok ()⟩
      else
        let minPlayersToStart := orDefault3 settings.minPlayersToStart
        if game.players.length < minPlayersToStart then
          ⟨s, [], [],
           .err ("Need at least " ++ toString minPlayersToStart ++ " players to start")⟩
        else
          match wordData with
          | none => ⟨s, [], [], .err "No words available for the game"⟩
          | some wd =>
            if strTrim wd.word = "" then
              ⟨s, [], [], .err "Invalid word retrieved from wordlist"⟩
            else
              let word := wd.word
              let hintWord : Option String := wd.hints.get? (rHint % wd.hints.length)
              let spyCount : Int := game.spyCount.getD 1
              let totalPlayers := game.players.length
              let actualSpyCount : Int := min spyCount ((totalPlayers : Int) / 2)
              let shuffled := fisherYates rShuffle totalPlayers
              let spyIdx := shuffled.take actualSpyCount.toNat
              let players1 := assignRoles s.players game.players 0
                (fun idx => if spyIdx.contains idx then Role.spy else Role.regular)
              let game1 := { game with word := some word, hintWord := hintWord,
                                       status := GStatus.playing }
              let s1 : ServerState :=
                { games := mapSet s.games gameId game1, players := players1 }
              if ¬ dbOk then ⟨s1, [], [], .err "Failed to start game"⟩
              else
                let scheduled :=
                  (game.players.filterMap (fun pid => mapFind players1 pid)).flatMap
                    (fun p => sendRoleToPlayer settings (bound p.id) p (some word) hintWord)
                ⟨s1, [Event.gameStarted gameId], scheduled, .ok ()⟩

/-- `end_game` (socket.ts lines 662–701).  `dbOk` is the `UPDATE games` query;
a throw is caught after the status has already been set to finished. -/
def endGame (s : ServerState) (socketPid : Option String) (gameId : String)
    (dbOk : Bool) : HOut Unit :=
  match socketPid with
  | none => ⟨s, [], .err "Player not registered"⟩
  | some playerId =>
    if playerId = "" then ⟨s, [], .err "Player not registered"⟩
    else
    match mapFind s.games gameId with
    | none => ⟨s, [], .err "Game not found"⟩
    | some game =>
      if game.hostId ≠ playerId then ⟨s, [], .err "Only the host can end the game"⟩
      else
        let game1 := { game with status := GStatus.finished }
        let s1 : ServerState := { s with games := mapSet s.games gameId game1 }
        if ¬ dbOk then ⟨s1, [], .err "Failed to end game"⟩
        else
          ⟨s1,
           [Event.gameEnded gameId ((game.word).getD "") game.hintWord
             (rosterWithRoles s1.players game.players)],
           .ok ()⟩

/-- `game.players.forEach(p => { p.role = undefined })` (restart). -/
def clearRoles (players : List (String × Player)) (mem : List String) :
    List (String × Player) :=
  match mem with
  | [] => players
  | pid :: rest =>
    let players' :=
      match mapFind players pid with
      | some p => mapSet players pid { p with role := none }
      | none => players
    clearRoles players' rest

/-- `restart_game` (socket.ts lines 755–809): host-only; no status check at all.
`dbOk` is the `UPDATE games` query; a throw is caught after the in-memory reset
has fully happened. -/
def restartGame (s : ServerState) (socketPid : Option String) (gameId : String)
    (dbOk : Bool) : HOut Unit :=
  match socketPid with
  | none => ⟨s, [], .err "Player not registered"⟩
  | some playerId =>
    if playerId = "" then ⟨s, [], .err "Player not registered"⟩
    else
    match mapFind s.games gameId with
    | none => ⟨s, [], .err "Game not found"⟩
    | some game =>
      if game.hostId ≠ playerId then
        ⟨s, [], .err "Only the host can restart the game"⟩
      else
        let game1 := { game with status := GStatus.waiting, word := none,
                                 hintWord := none }
        let s1 : ServerState := { games := mapSet s.games gameId game1,
                                  players := clearRoles s.players game.players }
        if ¬ dbOk then ⟨s1, [], .err "Failed to restart game"⟩
        else ⟨s1, [Event.gameRestarted gameId (rosterOf s1.players game.players)], .ok ()⟩

/-- `leave_game` (socket.ts lines 704–718).  The handler receives the socket's
bound identity and a `gameId` but its effect on the registries is
`removePlayerFromGame(playerId)` alone; `socket.leave(gameId)` only changes the
requesting connection's room membership. -/
def leaveGame (s : ServerState) (_socketPid : Option String) (_gameId : String)
    (playerId : String) : ServerState × List Event :=
  removePlayerFromGame s playerId

/-- The `disconnect` handler (socket.ts lines 812–862).  Inline re-implementation
in the source, *not* a call to `removePlayerFromGame`: it emits `host_left` /
`player_left` without checking whether the game is already finished, does not
clear the departing player's fields, and finally deletes the player identity
from the registry.  `dbOk` models the *unguarded* `await query('UPDATE games
…')` in the host branch (lines 831–834): the membership filter (line 824) and
`game.status = 'finished'` (line 828) mutate the object aliased by the `games`
map before the query, so when the query throws, control jumps to the handler's
outer catch with those two writes retained, and the `host_left` emit, the
empty-game deletion and `players.delete(playerId)` are all skipped.  The
non-host branch performs no query, so `dbOk` is irrelevant there. -/
def disconnect (s : ServerState) (socketPid : Option String) (dbOk : Bool) :
    ServerState × List Event :=
  match socketPid with
  | none => (s, [])
  | some playerId =>
    if playerId = "" then (s, [])
    else
      match mapFind s.players playerId with
      | none => (s, [])
      | some player =>
        match player.gameId with
        | some gid =>
          match mapFind s.games gid with
          | some game =>
            let remaining := game.players.filter (fun q => q ≠ playerId)
            if game.hostId = playerId then
              let game1 := { game with players := remaining,
                                       status := GStatus.finished }
              if ¬ dbOk then
                ({ s with games := mapSet s.games gid game1 }, [])
              else
                let games' := if remaining.length = 0 then mapDel s.games gid
                              else mapSet s.games gid game1
                ({ games := games', players := mapDel s.players playerId },
                 [Event.hostLeft gid])
            else
              let game1 := { game with players := remaining }
              let games' := if remaining.length = 0 then mapDel s.games gid
                            else mapSet s.games gid game1
              ({ games := games', players := mapDel s.players playerId },
               [Event.playerLeft gid playerId (rosterOf s.players remaining)])
          | none => ({ s with players := mapDel s.players playerId }, [])
        | none => ({ s with players := mapDel s.players playerId }, [])

/-- `request_role_info` reply payload. -/
structure RoleInfoReply where
  role : Role
  word : Option String
  hintWord : Option String
deriving DecidableEq, Repr

/-- `request_role_info` (socket.ts lines 499–598).  `regenHint` is the
`getRandomHintForWord` draw used when the stored hint is missing; a successful
regeneration is written back to the game. -/
def requestRoleInfo (s : ServerState) (socketPid : Option String)
    (settings : Settings) (regenHint : Option String) : HOut RoleInfoReply :=
  match socketPid with
  | none => ⟨s, [], .err "Player not registered"⟩
  | some playerId =>
    if playerId = "" then ⟨s, [], .err "Player not registered"⟩
    else
    match mapFind s.players playerId with
    | none => ⟨s, [], .err "Player not registered"⟩
    | some player =>
      match player.gameId with
      | none => ⟨s, [], .err "Player not in a game"⟩
      | some gid =>
        match mapFind s.games gid with
        | none => ⟨s, [], .err "Player not in a game"⟩
        | some game =>
          if game.status ≠ GStatus.playing then
            ⟨s, [], .err "Game not in playing state"⟩
          else if ¬ game.players.contains playerId then
            ⟨s, [], .err "Player role not found"⟩
          else
            match player.role with
            | none => ⟨s, [], .err "Player role not found"⟩
            | some role =>
              let wordToSend : Option String :=
                if role = Role.regular ∧ strTruthy game.word then
                  some (strTrim (game.word.getD ""))
                else none
              let hint0 : Option String :=
                if strTruthy game.hintWord then
                  if role = Role.spy ∨ settings.showHintsToRegularUsers = true then
                    some (strTrim (game.hintWord.getD ""))
                  else none
                else none
              if ¬ strTruthy hint0 ∧ strTruthy game.word ∧
                  (role = Role.spy ∨ settings.showHintsToRegularUsers = true) then
                if strTruthy regenHint then
                  let newHint := regenHint.getD ""
                  let game1 := { game with hintWord := some newHint }
                  ⟨{ s with games := mapSet s.games gid game1 }, [],
                   .ok { role := role, word := wordToSend, hintWord := some newHint }⟩
                else ⟨s, [], .ok { role := role, word := wordToSend, hintWord := hint0 }⟩
              else ⟨s, [], .ok { role := role, word := wordToSend, hintWord := hint0 }⟩

/-- `request_word` (socket.ts lines 602–659): regular players get the trimmed
word (error if none is stored); spies are refused. -/
def requestWord (s : ServerState) (socketPid : Option String) (gameId : String) :
    HOut String :=
  match socketPid with
  | none => ⟨s, [], .err "Player not registered"⟩
  | some playerId =>
    if playerId = "" then ⟨s, [], .err "Player not registered"⟩
    else
    match mapFind s.players playerId with
    | none => ⟨s, [], .err "Player not registered"⟩
    | some player =>
      if ¬ (strTruthy player.gameId ∧ player.gameId = some gameId) then
        ⟨s, [], .err "Player not in the specified game"⟩
      else
        match mapFind s.games gameId with
        | none => ⟨s, [], .err "Game not found"⟩
        | some game =>
          if game.status ≠ GStatus.playing then
            ⟨s, [], .err "Game not in playing state"⟩
          else if ¬ game.players.contains playerId then
            ⟨s, [], .err "Player role not found"⟩
          else
            match player.role with
            | none => ⟨s, [], .err "Player role not found"⟩
            | some role =>
              if role = Role.regular then
                if ¬ strTruthy game.word then
                  ⟨s, [], .err "No word defined for this game"⟩
                else ⟨s, [], .ok (strTrim (game.word.getD ""))⟩
              else ⟨s, [], .err "Spies cannot see the word"⟩

/-- The admin settings route (routes/game.ts line 431):
`Math.max(2, Number.parseInt(minPlayersToStart, 10) || 3)`; `parsed = none`
models a `NaN` parse. -/
def adminClampMinPlayers (parsed : Option Int) : Int :=
  max 2 (match parsed with
         | some v => if v = 0 then 3 else v
         | none => 3)

/-! ## Reachability: the step relation over the shared registries -/

/-- Server startup (`setupSocketHandlers`): both maps cleared. -/
def initState : ServerState := { games := [], players := [] }

/-- One inbound socket event processed by any handler, with arbitrary
parameters, sockets and injected randomness/database outcomes.
(`request_word` and `refresh_game_settings` never mutate the registries.) -/
inductive Step : ServerState → ServerState → Prop where
  | stepJoinAsPlayer (s : ServerState) (name : String) (eid : Option String)
      (fid : String) : Step s (joinAsPlayer s name eid fid).state
  | stepCreateGame (s : ServerState) (pid : Option String) (q : ℚ) (gid : String)
      (db1 db2 : Bool) (st : Settings) :
      Step s (createGame s pid q gid db1 db2 st).state
  | stepJoinGame (s : ServerState) (pid : Option String) (gid : String) (db : Bool)
      (st : Settings) : Step s (joinGame s pid gid db st).state
  | stepStartGame (s : ServerState) (pid : Option String) (gid : String)
      (st : Settings) (wd : Option WordData) (rh : Nat) (rs : Nat → Nat) (db : Bool)
      (bnd : String → Bool) : Step s (startGame s pid gid st wd rh rs db bnd).state
  | stepEndGame (s : ServerState) (pid : Option String) (gid : String) (db : Bool) :
      Step s (endGame s pid gid db).state
  | stepRestartGame (s : ServerState) (pid : Option String) (gid : String)
      (db : Bool) : Step s (restartGame s pid gid db).state
  | stepLeaveGame (s : ServerState) (pid : Option String) (gid : String)
      (target : String) : Step s (leaveGame s pid gid target).1
  | stepDisconnect (s : ServerState) (pid : Option String) (db : Bool) :
      Step s (disconnect s pid db).1
  | stepRequestRoleInfo (s : ServerState) (pid : Option String) (st : Settings)
      (regen : Option String) : Step s (requestRoleInfo s pid st regen).state

/-- States the server can actually be in. -/
def Reachable (s : ServerState) : Prop :=
  Relation.ReflTransGen Step initState s

/-- The role a registry holds for a player id (through the aliased object). -/
def roleOf (players : List (String × Player)) (pid : String) : Option Role :=
  (mapFind players pid).bind Player.role

/-- Number of members whose assigned role is spy. -/
def countSpies (players : List (String × Player)) (mem : List String) : Nat :=
  mem.countP (fun pid => roleOf players pid == some Role.spy)

/-! ## Map and list lemmas -/

theorem mapFind_mapDel {α : Type} (m : List (String × α)) (k k' : String) :
    mapFind (mapDel m k) k' = if k' = k then none else mapFind m k' := by
  induction m with
  | nil => simp [mapFind, mapDel]
  | cons hd tl ih =>
    obtain ⟨k0, v0⟩ := hd
    by_cases h0 : k0 = k
    · subst h0
      rw [show mapDel ((k0, v0) :: tl) k0 = mapDel tl k0 from by simp [mapDel], ih]
      by_cases h1 : k' = k0
      · simp [h1]
      · have h2 : ¬ (k0 = k') := fun hx => h1 hx.symm
        simp [mapFind, h1, h2]
    · rw [show mapDel ((k0, v0) :: tl) k = (k0, v0) :: mapDel tl k from by
        simp [mapDel, h0]]
      by_cases h1 : k0 = k'
      · subst h1
        have h2 : ¬ (k0 = k) := h0
        simp [mapFind, h2]
      · simp [mapFind, h1, ih]

theorem cons_set_perm {α : Type} (xs : List α) (k : Nat) (a b : α)
    (h : xs[k]? = some b) : (b :: xs.set k a).Perm (a :: xs) := by
  induction xs generalizing k with
  | nil => simp at h
  | cons x xs ih =>
    cases k with
    | zero =>
      simp at h
      subst h
      simpa [List.set] using List.Perm.swap a x xs
    | succ k =>
      simp at h
      have h1 : (b :: (x :: xs).set (k + 1) a).Perm (x :: b :: xs.set k a) := by
        simpa [List.set] using List.Perm.swap x b (xs.set k a)
      have h2 : (x :: b :: xs.set k a).Perm (x :: a :: xs) :=
        List.Perm.cons x (ih k h)
      have h3 : (x :: a :: xs).Perm (a :: x :: xs) := List.Perm.swap a x xs
      exact (h1.trans h2).trans h3

theorem set_set_perm {α : Type} (l : List α) (i j : Nat) (a b : α)
    (hi : l[i]? = some a) (hj : l[j]? = some b) :
    ((l.set i b).set j a).Perm l := by
  induction l generalizing i j with
  | nil => simp at hi
  | cons x xs ih =>
    cases i with
    | zero =>
      simp at hi
      subst hi
      cases j with
      | zero =>
        simp at hj
        subst hj
        simp [List.set]
      | succ m =>
        simp at hj
        simpa [List.set] using cons_set_perm xs m x b hj
    | succ k =>
      cases j with
      | zero =>
        simp at hj
        subst hj
        simp at hi
        simpa [List.set] using cons_set_perm xs k x a hi
      | succ m =>
        simp at hi hj
        simpa [List.set] using List.Perm.cons x (ih k m hi hj)

theorem listSwap_perm (l : List Nat) (i j : Nat) : (listSwap l i j).Perm l := by
  unfold listSwap
  rcases hi : l.get? i with _ | a
  · exact List.Perm.refl l
  · rcases hj : l.get? j with _ | b
    · exact List.Perm.refl l
    · rw [List.get?_eq_getElem?] at hi hj
      exact set_set_perm l i j a b hi hj

theorem fyAux_perm (r : Nat → Nat) (k : Nat) (l : List Nat) :
    (fyAux r k l).Perm l := by
  induction k generalizing l with
  | zero => exact List.Perm.refl l
  | succ k ih =>
    exact (ih (listSwap l (k + 1) (r (k + 1) % (k + 2)))).trans
      (listSwap_perm l (k + 1) (r (k + 1) % (k + 2)))

theorem fisherYates_perm (r : Nat → Nat) (n : Nat) :
    (fisherYates r n).Perm (List.range n) :=
  fyAux_perm r (n - 1) (List.range n)

theorem fisherYates_nodup (r : Nat → Nat) (n : Nat) : (fisherYates r n).Nodup :=
  ((fisherYates_perm r n).nodup_iff).mpr (List.nodup_range n)

theorem fisherYates_length (r : Nat → Nat) (n : Nat) :
    (fisherYates r n).length = n := by
  simpa using (fisherYates_perm r n).length_eq

theorem fisherYates_mem_lt (r : Nat → Nat) (n : Nat) (x : Nat)
    (hx : x ∈ fisherYates r n) : x < n := by
  have := (fisherYates_perm r n).mem_iff.mp hx
  simpa using this

/-! ## Lemmas about the role-assignment fold -/

theorem assignRoles_find_not_mem (mem : List String) :
    ∀ (players : List (String × Player)) (i : Nat) (f : Nat → Role) (pid : String),
      pid ∉ mem →
      mapFind (assignRoles players mem i f) pid = mapFind players pid := by
  induction mem with
  | nil => intro players i f pid _; rfl
  | cons q rest ih =>
    intro players i f pid h
    have hq : pid ≠ q := fun hx => h (hx ▸ List.mem_cons_self q rest)
    have hr : pid ∉ rest := fun hx => h (List.mem_cons_of_mem q hx)
    unfold assignRoles
    rcases hfq : mapFind players q with _ | p <;> simp only [hfq]
    · exact ih players (i + 1) f pid hr
    · rw [ih _ (i + 1) f pid hr, mapFind_mapSet_ne _ _ _ _ hq]

theorem assignRoles_find_get (mem : List String) :
    ∀ (players : List (String × Player)) (i : Nat) (f : Nat → Role) (k : Nat)
      (pid : String), mem.Nodup → mem[k]? = some pid →
      mapFind (assignRoles players mem i f) pid =
        (mapFind players pid).map (fun p => { p with role := some (f (i + k)) }) := by
  induction mem with
  | nil => intro _ _ _ k pid _ h; simp at h
  | cons q rest ih =>
    intro players i f k pid hnd hget
    obtain ⟨hqr, hndr⟩ := List.nodup_cons.mp hnd
    cases k with
    | zero =>
      simp at hget
      subst hget
      unfold assignRoles
      rcases hfq : mapFind players q with _ | p <;> simp only [hfq]
      · rw [assignRoles_find_not_mem rest players (i + 1) f q hqr]
        simp [hfq]
      · rw [assignRoles_find_not_mem rest _ (i + 1) f q hqr, mapFind_mapSet_self]
        simp [hfq]
    | succ k =>
      simp at hget
      have hpidr : pid ∈ rest := List.getElem?_mem hget
      have hpq : pid ≠ q := fun hx => hqr (hx ▸ hpidr)
      have hidx : i + 1 + k = i + (k + 1) := by omega
      unfold assignRoles
      rcases hfq : mapFind players q with _ | p <;> simp only [hfq]
      · rw [ih players (i + 1) f k pid hndr hget, hidx]
      · rw [ih _ (i + 1) f k pid hndr hget, mapFind_mapSet_ne _ _ _ _ hpq, hidx]

theorem assignRoles_countP (mem : List String) :
    ∀ (players : List (String × Player)) (i : Nat) (f : Nat → Role),
      mem.Nodup → (∀ q ∈ mem, (mapFind players q).isSome) →
      countSpies (assignRoles players mem i f) mem =
        (List.range' i mem.length).countP (fun j => f j == Role.spy) := by
  induction mem with
  | nil => intro players i f _ _; simp [countSpies]
  | cons q rest ih =>
    intro players i f hnd hpres
    obtain ⟨hqr, hndr⟩ := List.nodup_cons.mp hnd
    have hq : (mapFind players q).isSome := hpres q (List.mem_cons_self q rest)
    rcases hfq : mapFind players q with _ | p
    · rw [hfq] at hq; simp at hq
    · have hstep : assignRoles players (q :: rest) i f =
          assignRoles (mapSet players q { p with role := some (f i) }) rest (i + 1) f := by
        show assignRoles (match mapFind players q with
          | some p0 => mapSet players q { p0 with role := some (f i) }
          | none => players) rest (i + 1) f =
          assignRoles (mapSet players q { p with role := some (f i) }) rest (i + 1) f
        rw [hfq]
      have hhead : roleOf (assignRoles players (q :: rest) i f) q = some (f i) := by
        rw [roleOf, hstep, assignRoles_find_not_mem rest _ (i + 1) f q hqr,
          mapFind_mapSet_self]
        rfl
      have hpres' : ∀ q' ∈ rest, (mapFind (mapSet players q { p with role := some (f i) }) q').isSome := by
        intro q' hq'
        have hne : q' ≠ q := fun hx => hqr (hx ▸ hq')
        rw [mapFind_mapSet_ne _ _ _ _ hne]
        exact hpres q' (List.mem_cons_of_mem q hq')
      have htail : countSpies (assignRoles players (q :: rest) i f) rest =
          (List.range' (i + 1) rest.length).countP (fun j => f j == Role.spy) := by
        rw [hstep]
        exact ih _ (i + 1) f hndr hpres'
      unfold countSpies at htail ⊢
      rw [List.countP_cons, htail, hhead]
      have hlen : (q :: rest).length = rest.length + 1 := rfl
      rw [hlen, List.range'_succ i rest.length 1, List.countP_cons]
      have : (some (f i) == some Role.spy) = (f i == Role.spy) := by
        cases f i <;> rfl
      rw [this]

/-- Counting members of `range n` that lie in a duplicate-free list bounded by
`n` gives that list's length. -/
theorem countP_range_contains (T : List Nat) (n : Nat) (hnd : T.Nodup)
    (hlt : ∀ x ∈ T, x < n) :
    (List.range n).countP (fun j => T.contains j) = T.length := by
  rw [List.countP_eq_length_filter]
  have hperm : ((List.range n).filter (fun j => T.contains j)).Perm T := by
    apply List.Subperm.antisymm
    · apply List.Nodup.subperm (List.Nodup.filter _ (List.nodup_range n))
      intro x hx
      have hc : T.contains x = true := by simpa using List.of_mem_filter hx
      exact List.elem_iff.mp hc
    · apply List.Nodup.subperm hnd
      intro x hx
      refine List.mem_filter.mpr ⟨List.mem_range.mpr (hlt x hx), ?_⟩
      simpa using List.elem_iff.mpr hx
  exact hperm.length_eq

/-! ## Lemmas about the restart role-clearing fold -/

theorem clearRoles_find_not_mem (mem : List String) :
    ∀ (players : List (String × Player)) (pid : String), pid ∉ mem →
      mapFind (clearRoles players mem) pid = mapFind players pid := by
  induction mem with
  | nil => intro players pid _; rfl
  | cons q rest ih =>
    intro players pid h
    have hq : pid ≠ q := fun hx => h (hx ▸ List.mem_cons_self q rest)
    have hr : pid ∉ rest := fun hx => h (List.mem_cons_of_mem q hx)
    unfold clearRoles
    rcases hfq : mapFind players q with _ | p <;> simp only [hfq]
    · exact ih players pid hr
    · rw [ih _ pid hr, mapFind_mapSet_ne _ _ _ _ hq]

theorem clearRoles_find_mem (mem : List String) :
    ∀ (players : List (String × Player)) (pid : String), pid ∈ mem →
      mapFind (clearRoles players mem) pid =
        (mapFind players pid).map (fun p => { p with role := none }) := by
  induction mem with
  | nil => intro players pid h; simp at h
  | cons q rest ih =>
    intro players pid h
    unfold clearRoles
    rcases hfq : mapFind players q with _ | p <;> simp only [hfq]
    · by_cases hpq : pid = q
      · subst hpq
        by_cases hmem : pid ∈ rest
        · exact ih players pid hmem
        · rw [clearRoles_find_not_mem rest players pid hmem, hfq]
          rfl
      · have hmem : pid ∈ rest := by
          rcases List.mem_cons.mp h with h1 | h1
          · exact absurd h1 hpq
          · exact h1
        exact ih players pid hmem
    · by_cases hpq : pid = q
      · subst hpq
        by_cases hmem : pid ∈ rest
        · rw [ih _ pid hmem, mapFind_mapSet_self]
          simp [hfq]
        · rw [clearRoles_find_not_mem rest _ pid hmem, mapFind_mapSet_self, hfq]
          rfl
      · have hmem : pid ∈ rest := by
          rcases List.mem_cons.mp h with h1 | h1
          · exact absurd h1 hpq
          · exact h1
        rw [ih _ pid hmem, mapFind_mapSet_ne _ _ _ _ hpq]

/-! ## The word invariant: a playing game always stores a non-empty word -/

/-- Invariant over the games registry: every game in status `playing` has a
stored word whose trim is non-empty (`start_game` checks exactly this before
entering `playing`, and only `restart_game` clears it — together with the
status). -/
def WordInvG (games : List (String × Game)) : Prop :=
  ∀ gid game, mapFind games gid = some game → game.status = GStatus.playing →
    ∃ w, game.word = some w ∧ strTrim w ≠ ""

/-- The invariant on a whole server state. -/
def WordInv (s : ServerState) : Prop := WordInvG s.games

theorem wordInvG_mapSet (games : List (String × Game)) (gid : String) (g : Game)
    (hinv : WordInvG games)
    (hg : g.status = GStatus.playing → ∃ w, g.word = some w ∧ strTrim w ≠ "") :
    WordInvG (mapSet games gid g) := by
  intro gid' game' hfind hplay
  by_cases h : gid' = gid
  · subst h
    rw [mapFind_mapSet_self] at hfind
    injection hfind with hfind
    subst hfind
    exact hg hplay
  · rw [mapFind_mapSet_ne _ _ _ _ h] at hfind
    exact hinv gid' game' hfind hplay

theorem wordInvG_mapDel (games : List (String × Game)) (gid : String)
    (hinv : WordInvG games) : WordInvG (mapDel games gid) := by
  intro gid' game' hfind hplay
  rw [mapFind_mapDel] at hfind
  by_cases h : gid' = gid
  · simp [h] at hfind
  · rw [if_neg h] at hfind
    exact hinv gid' game' hfind hplay

theorem removePlayerFromGame_wordInv (s : ServerState) (pid : String)
    (hinv : WordInv s) : WordInv (removePlayerFromGame s pid).1 := by
  unfold removePlayerFromGame
  rcases h1 : mapFind s.players pid with _ | player
  · exact hinv
  dsimp only
  rcases h2 : player.gameId with _ | gid
  · exact hinv
  dsimp only
  rcases h3 : mapFind s.games gid with _ | game
  · exact hinv
  unfold WordInv at hinv ⊢
  dsimp only
  split_ifs with hlen hfin hhost
  · exact wordInvG_mapDel s.games gid hinv
  · apply wordInvG_mapSet _ _ _ hinv
    intro hplay
    simp at hplay
  · apply wordInvG_mapSet _ _ _ hinv
    intro hplay
    exact hinv gid game h3 hplay
  · apply wordInvG_mapSet _ _ _ hinv
    intro hplay
    exact hinv gid game h3 hplay

theorem disconnect_wordInv (s : ServerState) (pid : Option String) (db : Bool)
    (hinv : WordInv s) : WordInv (disconnect s pid db).1 := by
  unfold disconnect
  rcases pid with _ | playerId
  · exact hinv
  dsimp only
  by_cases hempty : playerId = ""
  · rw [if_pos hempty]
    exact hinv
  rw [if_neg hempty]
  rcases h1 : mapFind s.players playerId with _ | player
  · exact hinv
  dsimp only
  rcases h2 : player.gameId with _ | gid
  · exact hinv
  dsimp only
  rcases h3 : mapFind s.games gid with _ | game
  · exact hinv
  unfold WordInv at hinv ⊢
  dsimp only
  split_ifs <;>
    first
      | exact hinv
      | exact wordInvG_mapDel s.games gid hinv
      | (apply wordInvG_mapSet _ _ _ hinv
         intro hplay
         exact hinv gid game h3 hplay)
      | (apply wordInvG_mapSet _ _ _ hinv
         intro hplay
         exact absurd hplay (by simp))

theorem joinAsPlayer_wordInv (s : ServerState) (name : String) (eid : Option String)
    (fid : String) (hinv : WordInv s) : WordInv (joinAsPlayer s name eid fid).state := by
  unfold joinAsPlayer
  split_ifs with h0 h1
  · exact hinv
  · dsimp only
    rcases h : mapFind s.players (eid.getD "") with _ | p
    · exact hinv
    · exact hinv
  · dsimp only
    rcases h : mapFind s.players fid with _ | p
    · exact hinv
    · exact hinv

theorem createGame_wordInv (s : ServerState) (pid : Option String) (q : ℚ)
    (gid : String) (db1 db2 : Bool) (st : Settings) (hinv : WordInv s) :
    WordInv (createGame s pid q gid db1 db2 st).state := by
  unfold createGame
  rcases pid with _ | playerId
  · exact hinv
  dsimp only
  rcases h1 : mapFind s.players playerId with _ | player0
  · dsimp only
    split_ifs <;> exact hinv
  · dsimp only
    split_ifs <;>
      first
        | exact hinv
        | exact removePlayerFromGame_wordInv _ _ hinv
        | (apply wordInvG_mapSet _ _ _ (removePlayerFromGame_wordInv _ _ hinv)
           intro hplay
           simp at hplay)
        | (apply wordInvG_mapSet _ _ _ hinv
           intro hplay
           simp at hplay)

theorem joinGame_wordInv (s : ServerState) (pid : Option String) (gid : String)
    (db : Bool) (st : Settings) (hinv : WordInv s) :
    WordInv (joinGame s pid gid db st).state := by
  unfold joinGame
  rcases pid with _ | playerId
  · exact hinv
  dsimp only
  rcases h1 : mapFind s.players playerId with _ | player
  · dsimp only
    split_ifs <;> exact hinv
  dsimp only
  rcases h2 : mapFind s.games gid with _ | game
  · dsimp only
    split_ifs <;> exact hinv
  dsimp only
  split_ifs <;>
    first
      | exact hinv
      | exact removePlayerFromGame_wordInv _ _ hinv
      | (apply wordInvG_mapSet _ _ _ (removePlayerFromGame_wordInv _ _ hinv)
         intro hplay
         simp_all)
      | (apply wordInvG_mapSet _ _ _ hinv
         intro hplay
         simp_all)

theorem startGame_wordInv (s : ServerState) (pid : Option String) (gid : String)
    (st : Settings) (wd0 : Option WordData) (rh : Nat) (rs : Nat → Nat) (db : Bool)
    (bnd : String → Bool) (hinv : WordInv s) :
    WordInv (startGame s pid gid st wd0 rh rs db bnd).state := by
  unfold startGame
  rcases pid with _ | playerId
  · exact hinv
  dsimp only
  rcases h1 : mapFind s.games gid with _ | game
  · dsimp only
    split_ifs <;> exact hinv
  dsimp only
  rcases h5 : wd0 with _ | wd
  · dsimp only
    split_ifs <;> exact hinv
  dsimp only
  split_ifs <;>
    first
      | exact hinv
      | (apply wordInvG_mapSet _ _ _ hinv
         intro _
         exact ⟨wd.word, rfl, by assumption⟩)

theorem endGame_wordInv (s : ServerState) (pid : Option String) (gid : String)
    (db : Bool) (hinv : WordInv s) : WordInv (endGame s pid gid db).state := by
  unfold endGame
  rcases pid with _ | playerId
  · exact hinv
  dsimp only
  rcases h1 : mapFind s.games gid with _ | game
  · dsimp only
    split_ifs <;> exact hinv
  dsimp only
  split_ifs <;>
    first
      | exact hinv
      | (apply wordInvG_mapSet _ _ _ hinv
         intro hplay
         simp at hplay)

theorem restartGame_wordInv (s : ServerState) (pid : Option String) (gid : String)
    (db : Bool) (hinv : WordInv s) : WordInv (restartGame s pid gid db).state := by
  unfold restartGame
  rcases pid with _ | playerId
  · exact hinv
  dsimp only
  rcases h1 : mapFind s.games gid with _ | game
  · dsimp only
    split_ifs <;> exact hinv
  dsimp only
  split_ifs <;>
    first
      | exact hinv
      | (apply wordInvG_mapSet _ _ _ hinv
         intro hplay
         simp at hplay)

theorem requestRoleInfo_wordInv (s : ServerState) (pid : Option String)
    (st : Settings) (regen : Option String) (hinv : WordInv s) :
    WordInv (requestRoleInfo s pid st regen).state := by
  unfold requestRoleInfo
  rcases pid with _ | playerId
  · exact hinv
  dsimp only
  rcases h1 : mapFind s.players playerId with _ | player
  · dsimp only
    split_ifs <;> exact hinv
  dsimp only
  rcases h2 : player.gameId with _ | gid
  · dsimp only
    split_ifs <;> exact hinv
  dsimp only
  rcases h3 : mapFind s.games gid with _ | game
  · dsimp only
    split_ifs <;> exact hinv
  dsimp only
  rcases h6 : player.role with _ | role
  · dsimp only
    split_ifs <;> exact hinv
  dsimp only
  split_ifs <;>
    first
      | exact hinv
      | (apply wordInvG_mapSet _ _ _ hinv
         intro hplay
         exact hinv gid game h3 hplay)

/-- Every reachable server state satisfies the word invariant. -/
theorem reachable_wordInv (s : ServerState) (h : Reachable s) : WordInv s := by
  unfold Reachable at h
  induction h with
  | refl =>
    intro gid game hfind _
    simp [initState, mapFind] at hfind
  | tail hsteps hstep ih =>
    cases hstep with
    | stepJoinAsPlayer name eid fid => exact joinAsPlayer_wordInv _ name eid fid ih
    | stepCreateGame pid q gid db1 db2 st => exact createGame_wordInv _ pid q gid db1 db2 st ih
    | stepJoinGame pid gid db st => exact joinGame_wordInv _ pid gid db st ih
    | stepStartGame pid gid st wd rh rs db bnd =>
      exact startGame_wordInv _ pid gid st wd rh rs db bnd ih
    | stepEndGame pid gid db => exact endGame_wordInv _ pid gid db ih
    | stepRestartGame pid gid db => exact restartGame_wordInv _ pid gid db ih
    | stepLeaveGame pid gid target => exact removePlayerFromGame_wordInv _ target ih
    | stepDisconnect pid db => exact disconnect_wordInv _ pid db ih
    | stepRequestRoleInfo pid st regen => exact requestRoleInfo_wordInv _ pid st regen ih

/-! ## Concrete sample states (witnesses and counterexamples) -/

def sampleSettings : Settings := { showHintsToRegularUsers := false, minPlayersToStart := 3 }

def sampleWordData : WordData := { word := "apple", hints := ["fruit"] }

def sReg1 : ServerState := (joinAsPlayer initState "Host" none "uid-h").state

def sReg2 : ServerState := (joinAsPlayer sReg1 "Bob" none "uid-b").state

def sReg3 : ServerState := (joinAsPlayer sReg2 "Carol" none "uid-c").state

def sCreated : ServerState :=
  (createGame sReg3 (some "uid-h") 1 "g1" true true sampleSettings).state

def sJoined1 : ServerState :=
  (joinGame sCreated (some "uid-b") "g1" true sampleSettings).state

def sLobby : ServerState :=
  (joinGame sJoined1 (some "uid-c") "g1" true sampleSettings).state

def sPlaying : ServerState :=
  (startGame sLobby (some "uid-h") "g1" sampleSettings (some sampleWordData) 0
    (fun _ => 0) true (fun _ => true)).state

def sFinished : ServerState := (endGame sPlaying (some "uid-h") "g1" true).state

/-- The sample playing state is reachable from server startup. -/
theorem sPlaying_reachable : Reachable sPlaying :=
  Relation.ReflTransGen.tail
    (Relation.ReflTransGen.tail
      (Relation.ReflTransGen.tail
        (Relation.ReflTransGen.tail
          (Relation.ReflTransGen.tail
            (Relation.ReflTransGen.tail
              (Relation.ReflTransGen.tail Relation.ReflTransGen.refl
                (Step.stepJoinAsPlayer initState "Host" none "uid-h"))
              (Step.stepJoinAsPlayer sReg1 "Bob" none "uid-b"))
            (Step.stepJoinAsPlayer sReg2 "Carol" none "uid-c"))
          (Step.stepCreateGame sReg3 (some "uid-h") 1 "g1" true true sampleSettings))
        (Step.stepJoinGame sCreated (some "uid-b") "g1" true sampleSettings))
      (Step.stepJoinGame sJoined1 (some "uid-c") "g1" true sampleSettings))
    (Step.stepStartGame sLobby (some "uid-h") "g1" sampleSettings (some sampleWordData)
      0 (fun _ => 0) true (fun _ => true))

/-! ## C3 -/

/-- C3: when a game's status is already `playing`, a `start_game` request by the
host returns success and changes nothing: the state is untouched, no events are
broadcast and no role deliveries are scheduled — no second shuffle, no new word
pick. -/
theorem startGame_alreadyPlaying_noop (s : ServerState) (pid gameId : String)
    (settings : Settings) (wd : Option WordData) (rh : Nat) (rs : Nat → Nat)
    (db : Bool) (bnd : String → Bool) (game : Game)
    (hpid : pid ≠ "")
    (hfind : mapFind s.games gameId = some game)
    (hhost : game.hostId = pid)
    (hplaying : game.status = GStatus.playing) :
    startGame s (some pid) gameId settings wd rh rs db bnd =
      { state := s, events := [], scheduled := [], result := CbResult.ok () } := by
  unfold startGame
  dsimp only
  rw [if_neg hpid, hfind]
  dsimp only
  rw [if_neg (show ¬ game.hostId ≠ pid from fun h => h hhost),
    if_pos hplaying]

theorem startGame_alreadyPlaying_noop_witness :
    startGame sPlaying (some "uid-h") "g1" sampleSettings (some sampleWordData) 0
        (fun _ => 0) true (fun _ => true) =
      { state := sPlaying, events := [], scheduled := [], result := CbResult.ok () } :=
  startGame_alreadyPlaying_noop sPlaying "uid-h" "g1" sampleSettings
    (some sampleWordData) 0 (fun _ => 0) true (fun _ => true)
    { id := "g1", hostId := "uid-h", players := ["uid-h", "uid-b", "uid-c"],
      status := GStatus.playing, spyCount := some 1, word := some "apple",
      hintWord := some "fruit" }
    (by decide) (by decide) rfl rfl

/-! ## C10 -/

/-- C10: the effect of `leave_game` on the registries and its emitted events is
a function of the `playerId` argument alone — any connected requester, bound to
any identity, produces the identical outcome; in particular any client can
remove the host, which finishes the game. -/
theorem leaveGame_requester_independent (s : ServerState)
    (r1 r2 : Option String) (g1 g2 : String) (pid : String) :
    (leaveGame s r1 g1 pid = leaveGame s r2 g2 pid) ∧
    (∀ (player : Player) (gid : String) (game : Game),
      mapFind s.players pid = some player → player.gameId = some gid →
      mapFind s.games gid = some game → game.hostId = pid →
      game.status ≠ GStatus.finished →
      (game.players.filter (fun q => q ≠ pid)).length ≠ 0 →
      mapFind (leaveGame s r1 g1 pid).1.games gid =
        some { game with players := game.players.filter (fun q => q ≠ pid),
                         status := GStatus.finished } ∧
      (leaveGame s r1 g1 pid).2 = [Event.hostLeft gid]) := by
  constructor
  · rfl
  · intro player gid game h1 h2 h3 hhost hstat hlen
    unfold leaveGame removePlayerFromGame
    simp only [h1, h2, h3]
    rw [if_pos hstat, if_pos hhost, if_neg hlen, mapFind_mapSet_self]
    exact ⟨rfl, rfl⟩

theorem leaveGame_requester_independent_witness :
    mapFind (leaveGame sPlaying (some "uid-b") "gX" "uid-h").1.games "g1" =
      some { id := "g1", hostId := "uid-h", players := ["uid-b", "uid-c"],
             status := GStatus.finished, spyCount := some 1, word := some "apple",
             hintWord := some "fruit" } ∧
    (leaveGame sPlaying (some "uid-b") "gX" "uid-h").2 = [Event.hostLeft "g1"] :=
  (leaveGame_requester_independent sPlaying (some "uid-b") (some "uid-c") "gX" "gY"
      "uid-h").2
    { id := "uid-h", name := "Host", gameId := some "g1", role := some Role.regular }
    "g1"
    { id := "g1", hostId := "uid-h", players := ["uid-h", "uid-b", "uid-c"],
      status := GStatus.playing, spyCount := some 1, word := some "apple",
      hintWord := some "fruit" }
    (by decide) (by decide) (by decide) (by decide) (by decide) (by decide)

/-! ## C8 -/

/-- C8 counterexample: the requested spy count 9/2 lies in [1,5], yet the
created session stores spyCount 4 — `Math.floor` of the request — not the
request itself, refuting "equals the request when the request lies in [1,5]". -/
theorem createGame_spyCount_counterexample :
    (1 ≤ (9/2 : ℚ) ∧ (9/2 : ℚ) ≤ 5) ∧
    mapFind (createGame sReg1 (some "uid-h") (9/2 : ℚ) "g9" true true
        sampleSettings).state.games "g9" =
      some { id := "g9", hostId := "uid-h", players := ["uid-h"],
             status := GStatus.waiting, spyCount := some 4 } ∧
    ((4 : ℚ) ≠ (9/2 : ℚ)) := by
  have hvsc : validSpyCount (9/2 : ℚ) = 4 := by
    unfold validSpyCount
    rw [if_pos ⟨by norm_num, by norm_num, by norm_num⟩]
    show ⌊(9/2 : ℚ)⌋ = 4
    norm_num [Int.floor_eq_iff]
  refine ⟨⟨by norm_num, by norm_num⟩, ?_, by norm_num⟩
  unfold createGame
  dsimp only
  rw [if_neg (by decide : ¬ ("uid-h" = "")),
    show mapFind sReg1.players "uid-h" = some { id := "uid-h", name := "Host" }
      from by decide]
  dsimp only
  rw [if_neg (by decide : ¬ ((Option.isSome (none : Option String)) = true)),
    if_neg (show ¬ (¬ true = true) from not_not_intro rfl),
    if_neg (show ¬ (¬ true = true) from not_not_intro rfl),
    mapFind_mapSet_self, hvsc]

/-- C8 amended: the stored spyCount is always in [1,5]; when the request lies
in [1,5] the stored value is `Math.floor` of the request (so it equals the
request exactly when the request is an integer), and otherwise it is 1. -/
theorem createGame_spyCount_amended (q : ℚ) :
    (1 ≤ validSpyCount q ∧ validSpyCount q ≤ 5) ∧
    (1 ≤ q → q ≤ 5 → validSpyCount q = Rat.floor q) ∧
    (¬ (1 ≤ q ∧ q ≤ 5) → validSpyCount q = 1) ∧
    (∀ z : ℤ, 1 ≤ z → z ≤ 5 → validSpyCount (z : ℚ) = z) ∧
    (∀ (s : ServerState) (pid fid : String) (st : Settings) (player : Player),
      pid ≠ "" → mapFind s.players pid = some player →
      mapFind (createGame s (some pid) q fid true true st).state.games fid =
        some { id := fid, hostId := pid, players := [pid],
               status := GStatus.waiting, spyCount := some (validSpyCount q) }) := by
  have hfloor : ∀ r : ℚ, 1 ≤ r → r ≤ 5 → 1 ≤ Rat.floor r ∧ Rat.floor r ≤ 5 := by
    intro r h1 h5
    constructor
    · show (1 : ℤ) ≤ ⌊r⌋
      exact Int.le_floor.mpr (by exact_mod_cast h1)
    · show ⌊r⌋ ≤ (5 : ℤ)
      have := Int.floor_le_floor (α := ℚ) h5
      simpa using this
  refine ⟨?_, ?_, ?_, ?_, ?_⟩
  · by_cases h : q ≠ 0 ∧ 1 ≤ q ∧ q ≤ 5
    · unfold validSpyCount
      rw [if_pos h]
      exact hfloor q h.2.1 h.2.2
    · unfold validSpyCount
      rw [if_neg h]
      exact ⟨le_refl 1, by norm_num⟩
  · intro h1 h5
    unfold validSpyCount
    rw [if_pos ⟨by positivity, h1, h5⟩]
  · intro h
    unfold validSpyCount
    rw [if_neg (fun hc => h ⟨hc.2.1, hc.2.2⟩)]
  · intro z hz1 hz5
    unfold validSpyCount
    rw [if_pos ⟨by exact_mod_cast (by omega : z ≠ 0),
      by exact_mod_cast hz1, by exact_mod_cast hz5⟩]
    show ⌊(z : ℚ)⌋ = z
    exact Int.floor_intCast z
  · intro s pid fid st player hpid hfind
    unfold createGame
    dsimp only
    rw [if_neg hpid, hfind]
    dsimp only
    rw [if_neg (show ¬ (¬ true = true) from not_not_intro rfl),
      if_neg (show ¬ (¬ true = true) from not_not_intro rfl)]
    split_ifs <;> rw [mapFind_mapSet_self]

theorem createGame_spyCount_amended_witness :
    validSpyCount (9/2 : ℚ) = Rat.floor (9/2 : ℚ) ∧ validSpyCount (7 : ℚ) = 1 ∧
    mapFind (createGame sReg1 (some "uid-h") (9/2 : ℚ) "g9" true true
        sampleSettings).state.games "g9" =
      some { id := "g9", hostId := "uid-h", players := ["uid-h"],
             status := GStatus.waiting, spyCount := some (validSpyCount (9/2 : ℚ)) } :=
  ⟨(createGame_spyCount_amended (9/2 : ℚ)).2.1 (by norm_num) (by norm_num),
   (createGame_spyCount_amended (7 : ℚ)).2.2.1 (by norm_num),
   (createGame_spyCount_amended (9/2 : ℚ)).2.2.2.2 sReg1 "uid-h" "g9" sampleSettings
     { id := "uid-h", name := "Host" } (by decide) (by decide)⟩

/-! ## C9 -/

/-- C9 counterexample: registering with an `existingId` that names no known
identity creates the identity under the caller-supplied id ("attacker-chosen-id"),
not under the fresh server-generated id ("fresh-uuid"). -/
theorem joinAsPlayer_unknownExisting_counterexample :
    (joinAsPlayer initState "Mallory" (some "attacker-chosen-id") "fresh-uuid").result
        = CbResult.ok "attacker-chosen-id" ∧
    mapFind (joinAsPlayer initState "Mallory" (some "attacker-chosen-id")
        "fresh-uuid").state.players "attacker-chosen-id" =
      some { id := "attacker-chosen-id", name := "Mallory" } ∧
    mapFind (joinAsPlayer initState "Mallory" (some "attacker-chosen-id")
        "fresh-uuid").state.players "fresh-uuid" = none := by
  refine ⟨by decide, by decide, by decide⟩

/-- C9 amended: whenever `existingId` is a non-empty string it becomes the
identity's id — known or not; when it is known only the display name is
updated and the same identity is returned; a fresh server-generated id is used
only when `existingId` is absent or empty. -/
theorem joinAsPlayer_amended (s : ServerState) (name : String)
    (eid : Option String) (fid : String) (hname : strTrim name ≠ "") :
    (∀ e, eid = some e → e ≠ "" →
      (joinAsPlayer s name eid fid).result = CbResult.ok e ∧
      (∀ p, mapFind s.players e = some p →
        (joinAsPlayer s name eid fid).state.players =
          mapSet s.players e { p with name := strTake (strTrim name) 50 }) ∧
      (mapFind s.players e = none →
        mapFind (joinAsPlayer s name eid fid).state.players e =
          some { id := e, name := strTake (strTrim name) 50 })) ∧
    ((eid = none ∨ eid = some "") →
      (joinAsPlayer s name eid fid).result = CbResult.ok fid) := by
  constructor
  · rintro e rfl hne
    unfold joinAsPlayer
    rw [if_neg hname]
    dsimp only
    have ht : strTruthy (some e) = true := by simpa [strTruthy] using hne
    rw [if_pos ht]
    simp only [Option.getD_some]
    rcases hfe : mapFind s.players e with _ | p
    · refine ⟨rfl, ?_, ?_⟩
      · intro p' hp'
        simp at hp'
      · intro _
        rw [mapFind_mapSet_self]
    · refine ⟨rfl, ?_, ?_⟩
      · intro p' hp'
        injection hp' with hp'
        subst hp'
        rfl
      · intro h0
        simp at h0
  · intro hcase
    have ht : strTruthy eid = false := by
      rcases hcase with h | h <;> subst h <;> simp [strTruthy]
    unfold joinAsPlayer
    rw [if_neg hname]
    dsimp only
    rw [if_neg (by simp [ht])]
    rcases hff : mapFind s.players fid with _ | p
    · rfl
    · rfl

theorem joinAsPlayer_amended_witness :
    (joinAsPlayer initState "Mallory" (some "attacker-chosen-id") "fresh-uuid").result
        = CbResult.ok "attacker-chosen-id" ∧
    (joinAsPlayer initState "Ann" none "uuid-1").result = CbResult.ok "uuid-1" :=
  ⟨((joinAsPlayer_amended initState "Mallory" (some "attacker-chosen-id")
      "fresh-uuid" (by decide)).1 "attacker-chosen-id" rfl (by decide)).1,
   (joinAsPlayer_amended initState "Ann" none "uuid-1" (by decide)).2 (Or.inl rfl)⟩

/-! ## C6 -/

/-- C6 counterexample: on a game in status `playing`, a host restart request
succeeds and transitions the game to `waiting` — the claim says a restart of a
Playing game must not transition it. -/
theorem restartGame_playing_counterexample :
    (mapFind sPlaying.games "g1").map Game.status = some GStatus.playing ∧
    (restartGame sPlaying (some "uid-h") "g1" true).result = CbResult.ok () ∧
    (mapFind (restartGame sPlaying (some "uid-h") "g1" true).state.games "g1").map
        Game.status = some GStatus.waiting := by
  refine ⟨by decide, by decide, by decide⟩

/-- C6 amended: `restart_game` checks only that the requester is the host of an
existing game — there is no status precondition at all, so it succeeds from
Waiting, Playing and Finished alike; on success it clears the secret word, the
hint and every member's role and sets the status to Waiting. -/
theorem restartGame_amended (s : ServerState) (pid gameId : String) (game : Game)
    (hpid : pid ≠ "")
    (hfind : mapFind s.games gameId = some game)
    (hhost : game.hostId = pid) :
    (restartGame s (some pid) gameId true).result = CbResult.ok () ∧
    mapFind (restartGame s (some pid) gameId true).state.games gameId =
      some { game with status := GStatus.waiting, word := none, hintWord := none } ∧
    (∀ q ∈ game.players,
      mapFind (restartGame s (some pid) gameId true).state.players q =
        (mapFind s.players q).map (fun p => { p with role := none })) := by
  unfold restartGame
  dsimp only
  rw [if_neg hpid, hfind]
  dsimp only
  rw [if_neg (show ¬ game.hostId ≠ pid from fun h => h hhost),
    if_neg (show ¬ (¬ true = true) from not_not_intro rfl)]
  refine ⟨rfl, ?_, ?_⟩
  · rw [mapFind_mapSet_self]
  · intro q hq
    exact clearRoles_find_mem game.players s.players q hq

theorem restartGame_amended_witness :
    (restartGame sPlaying (some "uid-h") "g1" true).result = CbResult.ok () ∧
    mapFind (restartGame sPlaying (some "uid-h") "g1" true).state.games "g1" =
      some { id := "g1", hostId := "uid-h", players := ["uid-h", "uid-b", "uid-c"],
             status := GStatus.waiting, spyCount := some 1, word := none,
             hintWord := none } :=
  ⟨(restartGame_amended sPlaying "uid-h" "g1"
      { id := "g1", hostId := "uid-h", players := ["uid-h", "uid-b", "uid-c"],
        status := GStatus.playing, spyCount := some 1, word := some "apple",
        hintWord := some "fruit" } (by decide) (by decide) rfl).1,
   (restartGame_amended sPlaying "uid-h" "g1"
      { id := "g1", hostId := "uid-h", players := ["uid-h", "uid-b", "uid-c"],
        status := GStatus.playing, spyCount := some 1, word := some "apple",
        hintWord := some "fruit" } (by decide) (by decide) rfl).2.1⟩

/-! ## C4 -/

/-- C4 counterexample: when `createPlayerInDb` fails during `join_game`, the
handler reports an error — but `player.gameId` has already been set to the
target game, so the error callback is delivered from a partially-updated
state. -/
theorem joinGame_dbError_counterexample :
    ((joinGame sCreated (some "uid-b") "g1" false sampleSettings).result).isErr
        = true ∧
    (joinGame sCreated (some "uid-b") "g1" false sampleSettings).state ≠ sCreated ∧
    (mapFind (joinGame sCreated (some "uid-b") "g1" false
        sampleSettings).state.players "uid-b").map Player.gameId =
      some (some "g1") ∧
    (mapFind sCreated.players "uid-b").map Player.gameId = some none := by
  refine ⟨by decide, by decide, by decide, by decide⟩

/-- C4 amended: for `join_game`, `start_game`, `end_game` and `restart_game`,
every error reported while the database operations succeed (i.e. every
validation/authorization error) leaves the registries unchanged and emits no
events; only database-failure errors can leave a partial update behind. -/
theorem handlers_error_no_state_change (s : ServerState) (pid : Option String)
    (gid : String) (st : Settings) :
    ((joinGame s pid gid true st).result.isErr = true →
      (joinGame s pid gid true st).state = s ∧
      (joinGame s pid gid true st).events = []) ∧
    (∀ (wd : Option WordData) (rh : Nat) (rs : Nat → Nat) (bnd : String → Bool),
      (startGame s pid gid st wd rh rs true bnd).result.isErr = true →
      (startGame s pid gid st wd rh rs true bnd).state = s ∧
      (startGame s pid gid st wd rh rs true bnd).events = [] ∧
      (startGame s pid gid st wd rh rs true bnd).scheduled = []) ∧
    ((endGame s pid gid true).result.isErr = true →
      (endGame s pid gid true).state = s ∧ (endGame s pid gid true).events = []) ∧
    ((restartGame s pid gid true).result.isErr = true →
      (restartGame s pid gid true).state = s ∧
      (restartGame s pid gid true).events = []) := by
  refine ⟨?_, ?_, ?_, ?_⟩
  · unfold joinGame
    rcases pid with _ | playerId
    · intro _
      exact ⟨rfl, rfl⟩
    dsimp only
    rcases h1 : mapFind s.players playerId with _ | player
    · dsimp only
      split_ifs <;> intro _ <;> exact ⟨rfl, rfl⟩
    dsimp only
    rcases h2 : mapFind s.games gid with _ | game
    · dsimp only
      split_ifs <;> intro _ <;> exact ⟨rfl, rfl⟩
    dsimp only
    rw [if_neg (show ¬ (¬ true = true) from not_not_intro rfl)]
    split_ifs <;> intro hE <;>
      first
        | exact ⟨rfl, rfl⟩
        | simp [CbResult.isErr] at hE
  · intro wd rh rs bnd
    unfold startGame
    rcases pid with _ | playerId
    · intro _
      exact ⟨rfl, rfl, rfl⟩
    dsimp only
    rcases h1 : mapFind s.games gid with _ | game
    · dsimp only
      split_ifs <;> intro _ <;> exact ⟨rfl, rfl, rfl⟩
    dsimp only
    rcases h5 : wd with _ | wdd
    · dsimp only
      split_ifs <;> intro hE <;>
        first
          | exact ⟨rfl, rfl, rfl⟩
          | simp [CbResult.isErr] at hE
    dsimp only
    rw [if_neg (show ¬ (¬ true = true) from not_not_intro rfl)]
    split_ifs <;> intro hE <;>
      first
        | exact ⟨rfl, rfl, rfl⟩
        | simp [CbResult.isErr] at hE
  · unfold endGame
    rcases pid with _ | playerId
    · intro _
      exact ⟨rfl, rfl⟩
    dsimp only
    rcases h1 : mapFind s.games gid with _ | game
    · dsimp only
      split_ifs <;> intro _ <;> exact ⟨rfl, rfl⟩
    dsimp only
    rw [if_neg (show ¬ (¬ true = true) from not_not_intro rfl)]
    split_ifs <;> intro hE <;>
      first
        | exact ⟨rfl, rfl⟩
        | simp [CbResult.isErr] at hE
  · unfold restartGame
    rcases pid with _ | playerId
    · intro _
      exact ⟨rfl, rfl⟩
    dsimp only
    rcases h1 : mapFind s.games gid with _ | game
    · dsimp only
      split_ifs <;> intro _ <;> exact ⟨rfl, rfl⟩
    dsimp only
    rw [if_neg (show ¬ (¬ true = true) from not_not_intro rfl)]
    split_ifs <;> intro hE <;>
      first
        | exact ⟨rfl, rfl⟩
        | simp [CbResult.isErr] at hE

theorem handlers_error_no_state_change_witness :
    (joinGame sCreated (some "uid-b") "no-such-game" true sampleSettings).state
        = sCreated ∧
    (startGame sLobby (some "uid-b") "g1" sampleSettings (some sampleWordData) 0
        (fun _ => 0) true (fun _ => true)).state = sLobby :=
  ⟨((handlers_error_no_state_change sCreated (some "uid-b") "no-such-game"
      sampleSettings).1 (by decide)).1,
   ((handlers_error_no_state_change sLobby (some "uid-b") "g1"
      sampleSettings).2.1 (some sampleWordData) 0 (fun _ => 0) (fun _ => true)
      (by decide)).1⟩

/-! ## C5 -/

theorem mapDel_eq_of_find_none {α : Type} (m : List (String × α)) (k : String)
    (h : mapFind m k = none) : mapDel m k = m := by
  induction m with
  | nil => rfl
  | cons hd tl ih =>
    obtain ⟨k0, v0⟩ := hd
    rw [mapFind] at h
    by_cases h0 : k0 = k
    · rw [if_pos h0] at h
      cases h
    · rw [if_neg h0] at h
      simp [mapDel, h0, ih h]

/-- C5 counterexample: the connection-close handler and an explicit leave do
not have the same effect: the identity survives an explicit leave but is
deleted on disconnect, and on an already-finished game disconnect still emits a
departure notification while an explicit leave emits nothing. -/
theorem disconnect_vs_leave_counterexample :
    ((disconnect sPlaying (some "uid-b") true).1 ≠
      (leaveGame sPlaying (some "uid-b") "g1" "uid-b").1) ∧
    mapFind (leaveGame sPlaying (some "uid-b") "g1" "uid-b").1.players "uid-b"
        ≠ none ∧
    mapFind (disconnect sPlaying (some "uid-b") true).1.players "uid-b" = none ∧
    (disconnect sFinished (some "uid-b") true).2 =
      [Event.playerLeft "g1" "uid-b" [("uid-h", "Host"), ("uid-c", "Carol")]] ∧
    (leaveGame sFinished (some "uid-b") "g1" "uid-b").2 = [] := by
  refine ⟨by decide, by decide, by decide, by decide, by decide⟩

/-- C5 amended: provided the host-branch database status update succeeds,
disconnect (connectionLost) and an explicit leave coincide on the games
registry (same membership removal, same host-departure transition to Finished,
same deletion of an emptied game); they differ on the players registry exactly
by deleting the departing identity, and they emit the same events whenever the
departed game is not already finished (disconnect notifies even a finished
game, leave does not).  For a non-host departure the database never comes into
play and disconnect behaves identically either way; but when the departing
player hosts the game and the database update throws, disconnect stops halfway:
the membership filter and the Finished status are already applied, while the
departure notification, the empty-game deletion and the identity deletion are
all skipped. -/
theorem disconnect_vs_leave_amended (s : ServerState) (r : Option String)
    (g : String) (pid : String) (hpid : pid ≠ "") :
    ((disconnect s (some pid) true).1.games = (leaveGame s r g pid).1.games ∧
     (disconnect s (some pid) true).1.players =
       mapDel ((leaveGame s r g pid).1.players) pid) ∧
    (∀ (player : Player) (gid : String) (game : Game),
      mapFind s.players pid = some player → player.gameId = some gid →
      mapFind s.games gid = some game → game.status ≠ GStatus.finished →
      (disconnect s (some pid) true).2 = (leaveGame s r g pid).2) ∧
    (∀ (player : Player) (gid : String) (game : Game),
      mapFind s.players pid = some player → player.gameId = some gid →
      mapFind s.games gid = some game → game.hostId ≠ pid →
      disconnect s (some pid) false = disconnect s (some pid) true) ∧
    (∀ (player : Player) (gid : String) (game : Game),
      mapFind s.players pid = some player → player.gameId = some gid →
      mapFind s.games gid = some game → game.hostId = pid →
      (disconnect s (some pid) false).1.games = mapSet s.games gid ({ game with
          players := game.players.filter (fun q => q ≠ pid),
          status := GStatus.finished }) ∧
      (disconnect s (some pid) false).1.players = s.players ∧
      (disconnect s (some pid) false).2 = []) := by
  unfold disconnect leaveGame removePlayerFromGame
  dsimp only
  simp only [if_neg hpid]
  rcases h1 : mapFind s.players pid with _ | player
  · refine ⟨⟨rfl, (mapDel_eq_of_find_none s.players pid h1).symm⟩, ?_, ?_, ?_⟩ <;>
      (intro player' gid' game' hp hg hgm hx
       cases hp)
  dsimp only
  rcases h2 : player.gameId with _ | gid
  · refine ⟨⟨rfl, rfl⟩, ?_, ?_, ?_⟩ <;>
      (intro player' gid' game' hp hg hgm hx
       injection hp with hp
       subst hp
       exact absurd (h2.symm.trans hg) (by simp))
  dsimp only
  rcases h3 : mapFind s.games gid with _ | game
  · refine ⟨⟨rfl, rfl⟩, ?_, ?_, ?_⟩ <;>
      (intro player' gid' game' hp hg hgm hx
       injection hp with hp
       subst hp
       have hg2 := h2.symm.trans hg
       injection hg2 with hg2
       subst hg2
       exact absurd (h3.symm.trans hgm) (by simp))
  dsimp only
  refine ⟨⟨?_, ?_⟩, ?_, ?_, ?_⟩
  · by_cases hh : game.hostId = pid
    · by_cases hf : game.status ≠ GStatus.finished
      · simp [hh, hf]
      · have hfin : game.status = GStatus.finished := not_not.mp hf
        simp [hh, hf, hfin]
    · by_cases hf : game.status ≠ GStatus.finished <;> simp [hh, hf]
  · by_cases hh : game.hostId = pid <;>
      by_cases hf : game.status ≠ GStatus.finished <;>
      simp [hh, hf, mapDel_mapSet_self]
  · intro player' gid' game' hp hg hgm hnf
    injection hp with hp
    subst hp
    have hg2 := h2.symm.trans hg
    injection hg2 with hg2
    subst hg2
    have hgm2 := h3.symm.trans hgm
    injection hgm2 with hgm2
    subst hgm2
    by_cases hh : game.hostId = pid <;> simp [hh, hnf]
  · intro player' gid' game' hp hg hgm hh
    injection hp with hp
    subst hp
    have hg2 := h2.symm.trans hg
    injection hg2 with hg2
    subst hg2
    have hgm2 := h3.symm.trans hgm
    injection hgm2 with hgm2
    subst hgm2
    simp [hh]
  · intro player' gid' game' hp hg hgm hh
    injection hp with hp
    subst hp
    have hg2 := h2.symm.trans hg
    injection hg2 with hg2
    subst hg2
    have hgm2 := h3.symm.trans hgm
    injection hgm2 with hgm2
    subst hgm2
    refine ⟨?_, ?_, ?_⟩ <;> simp [hh]

theorem disconnect_vs_leave_amended_witness :
    (disconnect sPlaying (some "uid-b") true).1.games =
      (leaveGame sPlaying (some "r") "gZ" "uid-b").1.games ∧
    (disconnect sPlaying (some "uid-b") true).2 =
      (leaveGame sPlaying (some "r") "gZ" "uid-b").2 ∧
    (disconnect sPlaying (some "uid-h") false).2 = [] :=
  ⟨(disconnect_vs_leave_amended sPlaying (some "r") "gZ" "uid-b" (by decide)).1.1,
   (disconnect_vs_leave_amended sPlaying (some "r") "gZ" "uid-b" (by decide)).2.1
     { id := "uid-b", name := "Bob", gameId := some "g1", role := some Role.spy }
     "g1"
     { id := "g1", hostId := "uid-h", players := ["uid-h", "uid-b", "uid-c"],
       status := GStatus.playing, spyCount := some 1, word := some "apple",
       hintWord := some "fruit" }
     (by decide) (by decide) (by decide) (by decide),
   ((disconnect_vs_leave_amended sPlaying (some "r") "gZ" "uid-h"
       (by decide)).2.2.2
     { id := "uid-h", name := "Host", gameId := some "g1",
       role := some Role.regular }
     "g1"
     { id := "g1", hostId := "uid-h", players := ["uid-h", "uid-b", "uid-c"],
       status := GStatus.playing, spyCount := some 1, word := some "apple",
       hintWord := some "fruit" }
     (by decide) (by decide) (by decide) rfl).2.2⟩

/-! ## C1 and C2: the start transition and its role assignment -/

/-- Shape of the state after a `start_game` request that reaches the
role-assignment branch (all validations passed); the same state results
whether or not the subsequent database write succeeds. -/
theorem startGame_state_eq (s : ServerState) (pid gameId : String) (st : Settings)
    (wd : WordData) (rh : Nat) (rs : Nat → Nat) (db : Bool) (bnd : String → Bool)
    (game : Game)
    (hpid : pid ≠ "")
    (hfind : mapFind s.games gameId = some game)
    (hhost : game.hostId = pid)
    (hnp : game.status ≠ GStatus.playing)
    (hlen : ¬ (game.players.length < orDefault3 st.minPlayersToStart))
    (hw : ¬ (strTrim wd.word = "")) :
    (startGame s (some pid) gameId st (some wd) rh rs db bnd).state =
      { games := mapSet s.games gameId
          { game with word := some wd.word,
                      hintWord := wd.hints.get? (rh % wd.hints.length),
                      status := GStatus.playing },
        players := assignRoles s.players game.players 0
          (fun idx => if ((fisherYates rs game.players.length).take
              (min (game.spyCount.getD 1)
                ((game.players.length : ℤ) / 2)).toNat).contains idx
            then Role.spy else Role.regular) } := by
  unfold startGame
  dsimp only
  rw [if_neg hpid, hfind]
  dsimp only
  rw [if_neg (show ¬ game.hostId ≠ pid from fun h => h hhost), if_neg hnp,
    if_neg hlen, if_neg hw]
  split_ifs <;> rfl

/-- Core counting fact: assigning spy to exactly the indices in the first `k`
cells of the shuffled order yields exactly `k` spies among distinct,
registry-backed members. -/
theorem startGame_spyCount_core (players : List (String × Player))
    (mem : List String) (rs : Nat → Nat) (k : Nat) (hk : k ≤ mem.length)
    (hnd : mem.Nodup) (hpres : ∀ q ∈ mem, (mapFind players q).isSome) :
    countSpies (assignRoles players mem 0
      (fun idx => if ((fisherYates rs mem.length).take k).contains idx
        then Role.spy else Role.regular)) mem = k := by
  rw [assignRoles_countP mem players 0 _ hnd hpres]
  rw [← List.range_eq_range' mem.length]
  have hstep : (List.range mem.length).countP
      (fun j => (if ((fisherYates rs mem.length).take k).contains j
        then Role.spy else Role.regular) == Role.spy) =
      (List.range mem.length).countP
        (fun j => ((fisherYates rs mem.length).take k).contains j) := by
    apply List.countP_congr
    intro a _
    by_cases hc : ((fisherYates rs mem.length).take k).contains a = true
    · rw [if_pos hc]
      exact iff_of_true rfl hc
    · rw [if_neg hc]
      exact iff_of_false (by decide) hc
  rw [hstep, countP_range_contains _ _
    (List.Nodup.sublist (List.take_sublist _ _) (fisherYates_nodup rs _))
    (fun x hx => fisherYates_mem_lt rs _ x (List.mem_of_mem_take hx))]
  rw [List.length_take, fisherYates_length]
  omega

/-- Spy-count of the post-start state, shared by the C1 and C2 theorems. -/
theorem startGame_spies_aux (s : ServerState) (pid gameId : String) (st : Settings)
    (wd : WordData) (rh : Nat) (rs : Nat → Nat) (db : Bool) (bnd : String → Bool)
    (game : Game)
    (hpid : pid ≠ "")
    (hfind : mapFind s.games gameId = some game)
    (hhost : game.hostId = pid)
    (hnp : game.status ≠ GStatus.playing)
    (hmin2 : 2 ≤ st.minPlayersToStart)
    (hlen : ¬ (game.players.length < orDefault3 st.minPlayersToStart))
    (hw : ¬ (strTrim wd.word = ""))
    (hnd : game.players.Nodup)
    (hpres : ∀ q ∈ game.players, (mapFind s.players q).isSome)
    (hs1 : 1 ≤ game.spyCount.getD 1) :
    (countSpies (startGame s (some pid) gameId st (some wd) rh rs db
        bnd).state.players game.players : ℤ) =
      max 1 (min (game.spyCount.getD 1) ((game.players.length : ℤ) / 2)) := by
  rw [startGame_state_eq s pid gameId st wd rh rs db bnd game hpid hfind hhost hnp
    hlen hw]
  dsimp only
  have hmineq : orDefault3 st.minPlayersToStart = st.minPlayersToStart := by
    unfold orDefault3
    rw [if_neg (by omega)]
  have hn2 : 2 ≤ game.players.length := by
    rw [hmineq] at hlen
    omega
  have hhalf : 1 ≤ (game.players.length : ℤ) / 2 := by
    have h2 : (2 : ℤ) ≤ (game.players.length : ℤ) := by exact_mod_cast hn2
    omega
  have hmin1 : 1 ≤ min (game.spyCount.getD 1) ((game.players.length : ℤ) / 2) :=
    le_min hs1 hhalf
  have hkn : (min (game.spyCount.getD 1)
      ((game.players.length : ℤ) / 2)).toNat ≤ game.players.length := by
    rcases le_total (game.spyCount.getD 1) ((game.players.length : ℤ) / 2) with
      hle | hle
    · rw [min_eq_left hle]
      omega
    · rw [min_eq_right hle]
      omega
  rw [startGame_spyCount_core s.players game.players rs _ hkn hnd hpres]
  rw [Int.toNat_of_nonneg (le_trans zero_le_one hmin1)]
  exact (max_eq_right hmin1).symm

/-- C1: the admin route keeps `minPlayersToStart` ≥ 2, and for every game that
`start_game` actually starts (all checks passed, so the member count reaches at
least that minimum) with configured spy count in [1,5], the number of spies
assigned equals max(1, min(spyCount, ⌊members/2⌋)) — in particular at least 1.
The `Nodup`/registry hypotheses restate invariants of reachable states: a
member is appended only when absent and only when registered. -/
theorem startGame_effective_spy_count :
    (∀ parsed, 2 ≤ adminClampMinPlayers parsed) ∧
    (∀ (s : ServerState) (pid gameId : String) (st : Settings) (wd : WordData)
       (rh : Nat) (rs : Nat → Nat) (db : Bool) (bnd : String → Bool) (game : Game),
      pid ≠ "" → mapFind s.games gameId = some game → game.hostId = pid →
      game.status ≠ GStatus.playing →
      2 ≤ st.minPlayersToStart →
      ¬ (game.players.length < orDefault3 st.minPlayersToStart) →
      ¬ (strTrim wd.word = "") →
      game.players.Nodup →
      (∀ q ∈ game.players, (mapFind s.players q).isSome) →
      1 ≤ game.spyCount.getD 1 → game.spyCount.getD 1 ≤ 5 →
      (countSpies (startGame s (some pid) gameId st (some wd) rh rs db
          bnd).state.players game.players : ℤ) =
        max 1 (min (game.spyCount.getD 1) ((game.players.length : ℤ) / 2)) ∧
      1 ≤ (countSpies (startGame s (some pid) gameId st (some wd) rh rs db
          bnd).state.players game.players : ℤ)) := by
  constructor
  · intro parsed
    exact le_max_left 2 _
  · intro s pid gameId st wd rh rs db bnd game hpid hfind hhost hnp hmin2 hlen hw
      hnd hpres hs1 _
    have hc := startGame_spies_aux s pid gameId st wd rh rs db bnd game hpid hfind
      hhost hnp hmin2 hlen hw hnd hpres hs1
    refine ⟨hc, ?_⟩
    rw [hc]
    exact le_max_left 1 _

theorem startGame_effective_spy_count_witness :
    2 ≤ adminClampMinPlayers (some 1) ∧
    (countSpies (startGame sLobby (some "uid-h") "g1" sampleSettings
        (some sampleWordData) 0 (fun _ => 0) true (fun _ => true)).state.players
        ["uid-h", "uid-b", "uid-c"] : ℤ) = max 1 (min 1 ((3 : ℤ) / 2)) :=
  ⟨startGame_effective_spy_count.1 (some 1),
   (startGame_effective_spy_count.2 sLobby "uid-h" "g1" sampleSettings
     sampleWordData 0 (fun _ => 0) true (fun _ => true)
     { id := "g1", hostId := "uid-h", players := ["uid-h", "uid-b", "uid-c"],
       status := GStatus.waiting, spyCount := some 1 }
     (by decide) (by decide) rfl (by decide) (by decide) (by decide) (by decide)
     (by decide) (by decide) (by decide) (by decide)).1⟩

/-- C2: after a successful `start_game`, the role assignment partitions the
members exactly — every member ends up with exactly one role (`spy` or
`regular`, never unset), the number of spies equals the effective spy count,
and the Fisher–Yates shuffle produces a duplicate-free order, so the chosen
spy index prefix is distinct. -/
theorem startGame_role_partition (s : ServerState) (pid gameId : String)
    (st : Settings) (wd : WordData) (rh : Nat) (rs : Nat → Nat) (db : Bool)
    (bnd : String → Bool) (game : Game)
    (hpid : pid ≠ "")
    (hfind : mapFind s.games gameId = some game)
    (hhost : game.hostId = pid)
    (hnp : game.status ≠ GStatus.playing)
    (hmin2 : 2 ≤ st.minPlayersToStart)
    (hlen : ¬ (game.players.length < orDefault3 st.minPlayersToStart))
    (hw : ¬ (strTrim wd.word = ""))
    (hnd : game.players.Nodup)
    (hpres : ∀ q ∈ game.players, (mapFind s.players q).isSome)
    (hs1 : 1 ≤ game.spyCount.getD 1) :
    (∀ q ∈ game.players, ∃ r : Role,
      roleOf (startGame s (some pid) gameId st (some wd) rh rs db
        bnd).state.players q = some r) ∧
    (countSpies (startGame s (some pid) gameId st (some wd) rh rs db
        bnd).state.players game.players : ℤ) =
      max 1 (min (game.spyCount.getD 1) ((game.players.length : ℤ) / 2)) ∧
    (fisherYates rs game.players.length).Nodup ∧
    ((fisherYates rs game.players.length).take
      (min (game.spyCount.getD 1)
        ((game.players.length : ℤ) / 2)).toNat).Nodup := by
  refine ⟨?_, startGame_spies_aux s pid gameId st wd rh rs db bnd game hpid hfind
      hhost hnp hmin2 hlen hw hnd hpres hs1,
    fisherYates_nodup rs _,
    List.Nodup.sublist (List.take_sublist _ _) (fisherYates_nodup rs _)⟩
  intro q hq
  obtain ⟨j, hvalid, hje⟩ := List.getElem_of_mem hq
  have hj : game.players[j]? = some q := by
    rw [List.getElem?_eq_getElem hvalid, hje]
  rw [startGame_state_eq s pid gameId st wd rh rs db bnd game hpid hfind hhost hnp
    hlen hw]
  dsimp only
  rw [roleOf, assignRoles_find_get game.players s.players 0 _ j q hnd hj]
  rcases hp : mapFind s.players q with _ | p
  · exfalso
    have hps := hpres q hq
    rw [hp] at hps
    simp at hps
  · exact ⟨_, rfl⟩

theorem startGame_role_partition_witness :
    (∀ q ∈ ["uid-h", "uid-b", "uid-c"], ∃ r : Role,
      roleOf (startGame sLobby (some "uid-h") "g1" sampleSettings
        (some sampleWordData) 0 (fun _ => 0) true (fun _ => true)).state.players q
          = some r) ∧
    (fisherYates (fun _ => 0) 3).Nodup :=
  ⟨(startGame_role_partition sLobby "uid-h" "g1" sampleSettings sampleWordData 0
      (fun _ => 0) true (fun _ => true)
      { id := "g1", hostId := "uid-h", players := ["uid-h", "uid-b", "uid-c"],
        status := GStatus.waiting, spyCount := some 1 }
      (by decide) (by decide) rfl (by decide) (by decide) (by decide) (by decide)
      (by decide) (by decide) (by decide)).1,
   (startGame_role_partition sLobby "uid-h" "g1" sampleSettings sampleWordData 0
      (fun _ => 0) true (fun _ => true)
      { id := "g1", hostId := "uid-h", players := ["uid-h", "uid-b", "uid-c"],
        status := GStatus.waiting, spyCount := some 1 }
      (by decide) (by decide) rfl (by decide) (by decide) (by decide) (by decide)
      (by decide) (by decide) (by decide)).2.2.1⟩

/-! ## C7: word secrecy on every delivery path -/

/-- The word payload of a role-delivery event. -/
def eventWord : Event → Option String
  | .roleAssigned _ _ w _ => w
  | .playerRoleUpdate _ _ _ w _ => w
  | _ => none

/-- C7: while a game is Playing (in any reachable server state), no delivery
path hands a spy a non-null word or a regular player a null word:
(1) the private `role_assigned` send and its room-broadcast fallback,
(2) the `request_role_info` reply, (3) the `request_word` reply — a spy's
request is refused outright, and a regular member's request during play always
succeeds with a word. -/
theorem word_secrecy_while_playing (s : ServerState) (hreach : Reachable s) :
    (∀ (st : Settings) (bnd : Bool) (p : Player) (gw hw : Option String),
      ∀ e ∈ sendRoleToPlayer st bnd p gw hw,
        (p.role = some Role.spy → eventWord e = none) ∧
        (p.role = some Role.regular → eventWord e ≠ none)) ∧
    (∀ (pid : Option String) (st : Settings) (regen : Option String)
        (r : RoleInfoReply),
      (requestRoleInfo s pid st regen).result = CbResult.ok r →
        (r.role = Role.spy → r.word = none) ∧
        (r.role = Role.regular → r.word ≠ none)) ∧
    (∀ (pid gid : String) (w' : String),
      (requestWord s (some pid) gid).result = CbResult.ok w' →
        roleOf s.players pid = some Role.regular) ∧
    (∀ (pid gid : String) (player : Player) (game : Game),
      pid ≠ "" → gid ≠ "" →
      mapFind s.players pid = some player → player.gameId = some gid →
      mapFind s.games gid = some game → game.status = GStatus.playing →
      game.players.contains pid = true → player.role = some Role.regular →
      ∃ w', (requestWord s (some pid) gid).result = CbResult.ok w') := by
  have hinv : WordInv s := reachable_wordInv s hreach
  refine ⟨?_, ?_, ?_, ?_⟩
  · -- sendRoleToPlayer: both the direct send and the fallback broadcast
    intro st bnd p gw hw e he
    have hwd : eventWord e =
        (if p.role = some Role.regular then some (strTrim (gw.getD "")) else none) := by
      unfold sendRoleToPlayer at he
      cases bnd with
      | true =>
        rw [if_pos rfl] at he
        rw [List.mem_singleton] at he
        subst he
        rfl
      | false =>
        rw [if_neg (by decide)] at he
        rcases hgid : p.gameId with _ | gid
        · rw [hgid] at he
          simp at he
        · rw [hgid] at he
          dsimp only at he
          rw [List.mem_singleton] at he
          subst he
          rfl
    constructor
    · intro hspy
      rw [hwd, if_neg (by rw [hspy]; decide)]
    · intro hreg
      rw [hwd, if_pos hreg]
      simp
  · -- request_role_info
    intro pid st regen r hok
    unfold requestRoleInfo at hok
    rcases pid with _ | playerId
    · cases hok
    dsimp only at hok
    by_cases h0 : playerId = ""
    · rw [if_pos h0] at hok
      cases hok
    rw [if_neg h0] at hok
    rcases h1 : mapFind s.players playerId with _ | player
    · rw [h1] at hok
      cases hok
    rw [h1] at hok
    dsimp only at hok
    rcases h2 : player.gameId with _ | gid
    · rw [h2] at hok
      cases hok
    rw [h2] at hok
    dsimp only at hok
    rcases h3 : mapFind s.games gid with _ | game
    · rw [h3] at hok
      cases hok
    rw [h3] at hok
    dsimp only at hok
    by_cases h4 : game.status ≠ GStatus.playing
    · rw [if_pos h4] at hok
      cases hok
    rw [if_neg h4] at hok
    by_cases h5 : ¬ game.players.contains playerId = true
    · rw [if_pos h5] at hok
      cases hok
    rw [if_neg h5] at hok
    rcases h6 : player.role with _ | role
    · rw [h6] at hok
      cases hok
    rw [h6] at hok
    dsimp only at hok
    have hst : game.status = GStatus.playing := not_not.mp h4
    obtain ⟨w, hw, hwt⟩ := hinv gid game h3 hst
    have hwne : w ≠ "" := fun h0 => hwt (by rw [h0]; rfl)
    have htruthy : strTruthy game.word = true := by
      rw [hw]
      simpa [strTruthy] using hwne
    split_ifs at hok <;>
      (injection hok with hok
       subst hok
       refine ⟨fun hspy => ?_, fun hreg => ?_⟩ <;> simp_all)
  · -- request_word refuses spies
    intro pid gid w' hok
    unfold requestWord at hok
    dsimp only at hok
    by_cases h0 : pid = ""
    · rw [if_pos h0] at hok
      cases hok
    rw [if_neg h0] at hok
    rcases h1 : mapFind s.players pid with _ | player
    · rw [h1] at hok
      cases hok
    rw [h1] at hok
    dsimp only at hok
    by_cases h2 : ¬ (strTruthy player.gameId = true ∧ player.gameId = some gid)
    · rw [if_pos h2] at hok
      cases hok
    rw [if_neg h2] at hok
    rcases h3 : mapFind s.games gid with _ | game
    · rw [h3] at hok
      cases hok
    rw [h3] at hok
    dsimp only at hok
    by_cases h4 : game.status ≠ GStatus.playing
    · rw [if_pos h4] at hok
      cases hok
    rw [if_neg h4] at hok
    by_cases h5 : ¬ game.players.contains pid = true
    · rw [if_pos h5] at hok
      cases hok
    rw [if_neg h5] at hok
    rcases h6 : player.role with _ | role
    · rw [h6] at hok
      cases hok
    rw [h6] at hok
    dsimp only at hok
    by_cases h7 : role = Role.regular
    · rw [roleOf, h1]
      show player.role = some Role.regular
      rw [h6, h7]
    · rw [if_neg h7] at hok
      cases hok
  · -- a regular member's request during play succeeds
    intro pid gid player game hpid hgid h1 hg h3 hst hcon hrole
    unfold requestWord
    dsimp only
    rw [if_neg hpid, h1]
    dsimp only
    have htr : strTruthy player.gameId = true := by
      rw [hg]
      simpa [strTruthy] using hgid
    rw [if_neg (not_not_intro ⟨htr, hg⟩), h3]
    dsimp only
    rw [if_neg (show ¬ game.status ≠ GStatus.playing from fun hc => hc hst),
      if_neg (not_not_intro hcon), hrole]
    dsimp only
    rw [if_pos rfl]
    obtain ⟨w, hw, hwt⟩ := hinv gid game h3 hst
    have hwne : w ≠ "" := fun h0 => hwt (by rw [h0]; rfl)
    have htruthy : strTruthy game.word = true := by
      rw [hw]
      simpa [strTruthy] using hwne
    rw [if_neg (not_not_intro htruthy)]
    exact ⟨strTrim (game.word.getD ""), rfl⟩

theorem word_secrecy_while_playing_witness :
    (∃ w', (requestWord sPlaying (some "uid-h") "g1").result = CbResult.ok w') ∧
    (({ role := Role.spy, word := none, hintWord := some "fruit" } :
        RoleInfoReply).role = Role.spy →
      ({ role := Role.spy, word := none, hintWord := some "fruit" } :
        RoleInfoReply).word = none) :=
  ⟨(word_secrecy_while_playing sPlaying sPlaying_reachable).2.2.2 "uid-h" "g1"
      { id := "uid-h", name := "Host", gameId := some "g1",
        role := some Role.regular }
      { id := "g1", hostId := "uid-h", players := ["uid-h", "uid-b", "uid-c"],
        status := GStatus.playing, spyCount := some 1, word := some "apple",
        hintWord := some "fruit" }
      (by decide) (by decide) (by decide) (by decide) (by decide) (by decide)
      (by decide) (by decide),
   ((word_secrecy_while_playing sPlaying sPlaying_reachable).2.1 (some "uid-b")
      sampleSettings none
      { role := Role.spy, word := none, hintWord := some "fruit" }
      (by decide)).1⟩

end SpyApp
